import Mathlib

/-! Cloud project resource of the OVH Terraform provider.

A shallow embedding of `ovh/resource_cloud_project.go`:

* the format check `publicCloudProjectNameFormatRegex`, as a value of the
  fragment of Go's `regexp/syntax` that the pattern uses, run by a small
  backtracking matcher;
* the three CRUD entry points `resourceCloudProjectUpdate`,
  `resourceCloudProjectRead` and `resourceCloudProjectDelete`, written with
  explicit state passing: the Terraform resource data and the log of the calls
  made to the collaborators of the file.
-/

namespace Ovh

/-! ## The regular expression -/

/-- The operators of Go's `regexp/syntax` that occur in the pattern
`^[0-9a-f]{12}4[0-9a-f]{19}$`. No flag is set, so `^` is the beginning of the
text and `$` is the end of the text (not of a line). -/
inductive Regexp where
  | opBeginText
  | opEndText
  | opLiteral (c : Char)
  | opCharClass (ranges : List (Char × Char))
  | opRepeat (r : Regexp) (n : Nat)
  | opConcat (r s : Regexp)

/-- A position of the matcher in the text: the number of runes already
passed and the runes still ahead. -/
structure Cursor where
  pos : Nat
  rest : List Char
deriving DecidableEq, Repr

/-- Membership of a rune in a character class given by inclusive ranges. -/
def inClass (ranges : List (Char × Char)) (c : Char) : Bool :=
  ranges.any (fun r => decide (r.1 ≤ c) && decide (c ≤ r.2))

/-- The cursors reached by running `f` exactly `n` times in sequence. -/
def runTimes (f : Cursor → List Cursor) : Nat → Cursor → List Cursor
  | 0, c => [c]
  | n + 1, c => (f c).flatMap (runTimes f n)

/-- Every cursor at which a match of `re` that starts at the given cursor can
end. -/
def Regexp.run : Regexp → Cursor → List Cursor
  | .opBeginText, c => if c.pos = 0 then [c] else []
  | .opEndText, c => if c.rest.isEmpty then [c] else []
  | .opLiteral ch, c =>
    match c.rest with
    | [] => []
    | x :: xs => if x = ch then [⟨c.pos + 1, xs⟩] else []
  | .opCharClass ranges, c =>
    match c.rest with
    | [] => []
    | x :: xs => if inClass ranges x then [⟨c.pos + 1, xs⟩] else []
  | .opRepeat r n, c => runTimes (fun d => r.run d) n c
  | .opConcat r s, c => (r.run c).flatMap (fun d => s.run d)

/-- Unanchored search: is there a match starting at this cursor or at a later
one? -/
def Regexp.searchFrom (re : Regexp) : Nat → List Char → Bool
  | pos, [] => !(re.run ⟨pos, []⟩).isEmpty
  | pos, x :: xs => !(re.run ⟨pos, x :: xs⟩).isEmpty || re.searchFrom (pos + 1) xs

/-- `(*Regexp).MatchString`: does the text contain a match of the expression? -/
def Regexp.MatchString (re : Regexp) (s : String) : Bool :=
  re.searchFrom 0 s.toList

/-- The class `[0-9a-f]`. -/
def hexClass : Regexp := .opCharClass [('0', '9'), ('a', 'f')]

/-- `regexp.MustCompile("^[0-9a-f]{12}4[0-9a-f]{19}$")`. -/
def publicCloudProjectNameFormatRegex : Regexp :=
  .opConcat .opBeginText
    (.opConcat (.opRepeat hexClass 12)
      (.opConcat (.opLiteral '4')
        (.opConcat (.opRepeat hexClass 19) .opEndText)))

/-- A hexadecimal digit in `0-9` or `a-f`, the way the format is described in
words. -/
def isLowerHexDigit (c : Char) : Prop :=
  ('0' ≤ c ∧ c ≤ '9') ∨ ('a' ≤ c ∧ c ≤ 'f')

instance isLowerHexDigitDecidable (c : Char) : Decidable (isLowerHexDigit c) := by
  unfold isLowerHexDigit; infer_instance

/-- The format in words: 32 characters, the literal `4` at index 12, a
hexadecimal digit in `0-9` or `a-f` everywhere else. -/
def hasProjectNameShape (cs : List Char) : Prop :=
  cs.length = 32 ∧ cs[12]? = some '4' ∧
    ∀ i c, i ≠ 12 → cs[i]? = some c → isLowerHexDigit c

/-- The text split the way the pattern reads it. -/
def splitsAsProjectName (cs : List Char) : Prop :=
  ∃ a b, cs = a ++ '4' :: b ∧ a.length = 12 ∧ b.length = 19 ∧
    (∀ c ∈ a, isLowerHexDigit c) ∧ (∀ c ∈ b, isLowerHexDigit c)

/-! ## Data handled by the resource

Only the fields that `resource_cloud_project.go` reads are kept. The types
themselves are declared in other files of the package. -/

/-- A Go `error` value as far as this file looks at one: the text `Error()`
gives and, when its dynamic type is `*ovh.APIError`, the field `Code`. -/
structure GoError where
  Error : String
  apiCode : Option Int
deriving DecidableEq, Repr

/-- The value `fmt.Errorf` builds from a format without `%w`: a plain error,
never an `*ovh.APIError`. -/
def Errorf (text : String) : GoError := ⟨text, none⟩

deriving instance DecidableEq for Except

/-- `MeOrder`: the purchase order. -/
structure MeOrder where
  OrderId : Int
deriving DecidableEq, Repr

/-- `MeOrderDetail`: one detail line of an order. -/
structure MeOrderDetail where
  OrderDetailId : Int
  Domain : String
deriving DecidableEq, Repr

/-- The field `Resource` of an order detail operation. -/
structure MeOrderDetailOperationResource where
  Name : String
deriving DecidableEq, Repr

/-- `MeOrderDetailOperation`. -/
structure MeOrderDetailOperation where
  Resource : MeOrderDetailOperationResource
deriving DecidableEq, Repr

/-- `schema.ResourceData`: the resource id and the attributes set so far. -/
structure ResourceData where
  id : String
  attrs : List (String × String)
deriving DecidableEq, Repr

/-- `d.Id()`. -/
def ResourceData.Id (d : ResourceData) : String := d.id

/-- `d.SetId(v)`. -/
def ResourceData.SetId (d : ResourceData) (v : String) : ResourceData :=
  { d with id := v }

/-- `d.Set(k, v)`: the attribute `k` now holds `v`. -/
def ResourceData.Set (d : ResourceData) (k v : String) : ResourceData :=
  { d with attrs := (k, v) :: d.attrs.filter (fun kv => kv.1 != k) }

/-- A call that leaves this file: to a helper of the package or to the API
client. -/
inductive Call where
  | orderCreate (product : String)
  | orderRead (id : String)
  | orderDetailOperations (orderId orderDetailId : Int)
  | Put (endpoint : String) (opts : String)
  | Get (endpoint : String)
  | Post (endpoint : String) (body : Option String)
deriving DecidableEq, Repr

/-- What a CRUD function works on: the resource data `d` it was handed and
the calls made so far, oldest first. -/
structure State where
  d : ResourceData
  calls : List Call
deriving DecidableEq, Repr

/-- How a CRUD function ends: it returns an `error` (possibly `nil`), or the
index expression `details[0]` panics on an empty slice. -/
inductive Outcome where
  | returned (err : Option GoError)
  | panicked
deriving DecidableEq, Repr

/-- Everything `resource_cloud_project.go` calls and does not define. Each
answer may depend on the calls made before it.

* `orderCreate`, `orderRead`, `orderDetailOperations`, `orderDelete`: helpers
  of the package, defined in another file; `orderRead` and `orderCreate`
  receive the resource data and may write to it;
* `CheckDeleted`: `helpers.CheckDeleted`;
* `FromResource`: `(&CloudProjectUpdateOpts{}).FromResource(d)`, the body of
  the PUT;
* `Put`, `Get`, `Post`: the methods of `config.OVHClient`; `Get` answers with
  the map `r.ToMap()` of the project it decoded;
* `PathEscape`: `url.PathEscape`; `Quote`: `strconv.Quote`, which the verb `%q`
  applies to the text of an error. -/
structure Collaborators where
  orderCreate : List Call → ResourceData → String → ResourceData × Option GoError
  orderRead : List Call → ResourceData →
    ResourceData × Except GoError (MeOrder × List MeOrderDetail)
  orderDetailOperations : List Call → Int → Int → Except GoError (List MeOrderDetailOperation)
  orderDelete : (State → State × (String × Option GoError)) →
    (String → State → State × Option GoError) → State → State × Option GoError
  CheckDeleted : ResourceData → GoError → String → ResourceData × Option GoError
  FromResource : ResourceData → String
  Put : List Call → String → String → Option GoError
  Get : List Call → String → Except GoError (List (String × String))
  Post : List Call → String → Option String → Option GoError
  PathEscape : String → String
  Quote : String → String

/-! ## The calls, with their record in the log -/

/-- `orderCreate(d, meta, product)`. -/
def callOrderCreate (x : Collaborators) (product : String) (s : State) :
    State × Option GoError :=
  let r := x.orderCreate s.calls s.d product
  (⟨r.1, s.calls ++ [.orderCreate product]⟩, r.2)

/-- `orderRead(d, meta)`. -/
def callOrderRead (x : Collaborators) (s : State) :
    State × Except GoError (MeOrder × List MeOrderDetail) :=
  let r := x.orderRead s.calls s.d
  (⟨r.1, s.calls ++ [.orderRead s.d.Id]⟩, r.2)

/-- `orderDetailOperations(config.OVHClient, orderId, orderDetailId)`. -/
def callOrderDetailOperations (x : Collaborators) (orderId orderDetailId : Int) (s : State) :
    State × Except GoError (List MeOrderDetailOperation) :=
  (⟨s.d, s.calls ++ [.orderDetailOperations orderId orderDetailId]⟩,
    x.orderDetailOperations s.calls orderId orderDetailId)

/-- `config.OVHClient.Put(endpoint, opts, nil)`. -/
def callPut (x : Collaborators) (endpoint opts : String) (s : State) :
    State × Option GoError :=
  (⟨s.d, s.calls ++ [.Put endpoint opts]⟩, x.Put s.calls endpoint opts)

/-- `config.OVHClient.Get(endpoint, &r)`. -/
def callGet (x : Collaborators) (endpoint : String) (s : State) :
    State × Except GoError (List (String × String)) :=
  (⟨s.d, s.calls ++ [.Get endpoint]⟩, x.Get s.calls endpoint)

/-- `config.OVHClient.Post(endpoint, body, nil)`. -/
def callPost (x : Collaborators) (endpoint : String) (body : Option String) (s : State) :
    State × Option GoError :=
  (⟨s.d, s.calls ++ [.Post endpoint body]⟩, x.Post s.calls endpoint body)

/-! ## resource_cloud_project.go

`log.Printf` lines are left out: they touch neither the resource data nor the
API. -/

/-- The body of the loop `for _, operation := range operations`: an operation
whose resource name does not match is skipped (`continue`), any other one
overwrites `serviceName`. -/
def scanStep (serviceName : String) (operation : MeOrderDetailOperation) : String :=
  if !publicCloudProjectNameFormatRegex.MatchString operation.Resource.Name then
    serviceName
  else
    operation.Resource.Name

/-- Lines 88 to 105 of `resourceCloudProjectUpdate`: the service name, from
the order and its first detail. -/
def resourceCloudProjectUpdate.serviceName (x : Collaborators) (order : MeOrder)
    (details0 : MeOrderDetail) (s : State) : State × Except GoError String :=
  let serviceName := details0.Domain
  if !publicCloudProjectNameFormatRegex.MatchString serviceName then
    let orderDetailId := details0.OrderDetailId
    match callOrderDetailOperations x order.OrderId orderDetailId s with
    | (s, .error err) =>
      (s, .error (Errorf
        ("Could not read cloudProject order details operations: " ++ x.Quote err.Error)))
    | (s, .ok operations) => (s, .ok (operations.foldl scanStep serviceName))
  else
    (s, .ok serviceName)

/-- Lines 124 to 141 of `resourceCloudProjectRead`: the service name, from the
order and its first detail. -/
def resourceCloudProjectRead.serviceName (x : Collaborators) (order : MeOrder)
    (details0 : MeOrderDetail) (s : State) : State × Except GoError String :=
  let serviceName := details0.Domain
  if !publicCloudProjectNameFormatRegex.MatchString serviceName then
    let orderDetailId := details0.OrderDetailId
    match callOrderDetailOperations x order.OrderId orderDetailId s with
    | (s, .error err) =>
      (s, .error (Errorf
        ("Could not read cloudProject order details operations: " ++ x.Quote err.Error)))
    | (s, .ok operations) => (s, .ok (operations.foldl scanStep serviceName))
  else
    (s, .ok serviceName)

/-- Lines 165 to 182 of `resourceCloudProjectDelete`: the service name, from
the order and its first detail. -/
def resourceCloudProjectDelete.serviceName (x : Collaborators) (order : MeOrder)
    (details0 : MeOrderDetail) (s : State) : State × Except GoError String :=
  let serviceName := details0.Domain
  if !publicCloudProjectNameFormatRegex.MatchString serviceName then
    let orderDetailId := details0.OrderDetailId
    match callOrderDetailOperations x order.OrderId orderDetailId s with
    | (s, .error err) =>
      (s, .error (Errorf
        ("Could not read cloudProject order details operations: " ++ x.Quote err.Error)))
    | (s, .ok operations) => (s, .ok (operations.foldl scanStep serviceName))
  else
    (s, .ok serviceName)

/-- `resourceCloudProjectRead`: an error of the GET goes to
`helpers.CheckDeleted`; otherwise every entry of `r.ToMap()` is set on the
resource. -/
def resourceCloudProjectRead (x : Collaborators) (s : State) : State × Outcome :=
  match callOrderRead x s with
  | (s, .error err) =>
    (s, .returned (some (Errorf ("Could not read cloudProject order: " ++ x.Quote err.Error))))
  | (s, .ok (order, details)) =>
    match details with
    | [] => (s, .panicked)
    | details0 :: _ =>
      match resourceCloudProjectRead.serviceName x order details0 s with
      | (s, .error e) => (s, .returned (some e))
      | (s, .ok serviceName) =>
        let endpoint := "/cloud/project/" ++ x.PathEscape serviceName
        match callGet x endpoint s with
        | (s, .error err) =>
          let r := x.CheckDeleted s.d err endpoint
          (⟨r.1, s.calls⟩, .returned r.2)
        | (s, .ok r) =>
          (⟨r.foldl (fun d kv => d.Set kv.1 kv.2) s.d, s.calls⟩, .returned none)

/-- `resourceCloudProjectUpdate`: the PUT, then `resourceCloudProjectRead`. -/
def resourceCloudProjectUpdate (x : Collaborators) (s : State) : State × Outcome :=
  match callOrderRead x s with
  | (s, .error err) =>
    (s, .returned (some (Errorf ("Could not read cloud project order: " ++ x.Quote err.Error))))
  | (s, .ok (order, details)) =>
    match details with
    | [] => (s, .panicked)
    | details0 :: _ =>
      match resourceCloudProjectUpdate.serviceName x order details0 s with
      | (s, .error e) => (s, .returned (some e))
      | (s, .ok serviceName) =>
        let opts := x.FromResource s.d
        let endpoint := "/cloud/project/" ++ x.PathEscape serviceName
        match callPut x endpoint opts s with
        | (s, some err) =>
          (s, .returned (some (Errorf
            ("calling Put " ++ endpoint ++ ": " ++ x.Quote err.Error))))
        | (s, none) => resourceCloudProjectRead x s

/-- `resourceCloudProjectCreate`: the order of the product `cloud`, then
`resourceCloudProjectUpdate`. -/
def resourceCloudProjectCreate (x : Collaborators) (s : State) : State × Outcome :=
  match callOrderCreate x "cloud" s with
  | (s, some err) =>
    (s, .returned (some (Errorf ("Could not order cloud project: " ++ x.Quote err.Error))))
  | (s, none) => resourceCloudProjectUpdate x s

/-- The closure `terminate` of `resourceCloudProjectDelete`, over the
`serviceName` it captures (`id := d.Id()` is captured too, for the log line
only). The first component of the result is the string the closure returns,
the second its error. -/
def resourceCloudProjectDelete.terminate (x : Collaborators) (serviceName : String)
    (s : State) : State × (String × Option GoError) :=
  let endpoint := "/cloud/project/" ++ x.PathEscape serviceName ++ "/terminate"
  match callPost x endpoint none s with
  | (s, some err) =>
    if err.apiCode = some 404 ∨ err.apiCode = some 460 then
      (s, ("", none))
    else
      (s, ("", some (Errorf ("calling Post " ++ endpoint ++ ":\n\t " ++ x.Quote err.Error))))
  | (s, none) => (s, (serviceName, none))

/-- The closure `confirmTerminate` of `resourceCloudProjectDelete`, over the
`serviceName` it captures; the body of the POST carries the token. -/
def resourceCloudProjectDelete.confirmTerminate (x : Collaborators) (serviceName : String)
    (token : String) (s : State) : State × Option GoError :=
  let endpoint := "/cloud/project/" ++ x.PathEscape serviceName ++ "/confirmTermination"
  match callPost x endpoint (some token) s with
  | (s, some err) =>
    (s, some (Errorf ("calling Post " ++ endpoint ++ ":\n\t " ++ x.Quote err.Error)))
  | (s, none) => (s, none)

/-- `resourceCloudProjectDelete`: the two closures are handed to `orderDelete`;
the id is cleared when that returns no error. -/
def resourceCloudProjectDelete (x : Collaborators) (s : State) : State × Outcome :=
  match callOrderRead x s with
  | (s, .error err) =>
    (s, .returned (some (Errorf ("Could not read cloudProject order: " ++ x.Quote err.Error))))
  | (s, .ok (order, details)) =>
    match details with
    | [] => (s, .panicked)
    | details0 :: _ =>
      match resourceCloudProjectDelete.serviceName x order details0 s with
      | (s, .error e) => (s, .returned (some e))
      | (s, .ok serviceName) =>
        match x.orderDelete (resourceCloudProjectDelete.terminate x serviceName)
            (resourceCloudProjectDelete.confirmTerminate x serviceName) s with
        | (s, some err) => (s, .returned (some err))
        | (s, none) => (⟨s.d.SetId "", s.calls⟩, .returned none)

/-! ## The resolution in words -/

/-- The name of the first operation, in returned order, whose resource name
matches the format; the domain when there is none. -/
def firstMatchingName (domain : String) (operations : List MeOrderDetailOperation) : String :=
  match operations.find? (fun o => publicCloudProjectNameFormatRegex.MatchString o.Resource.Name) with
  | some o => o.Resource.Name
  | none => domain

/-- The name of the last operation, in returned order, whose resource name
matches the format; the domain when there is none. -/
def lastMatchingName (domain : String) (operations : List MeOrderDetailOperation) : String :=
  match (operations.filter
      (fun o => publicCloudProjectNameFormatRegex.MatchString o.Resource.Name)).getLast? with
  | some o => o.Resource.Name
  | none => domain

/-- The service name as a function of the first detail domain and of the
answer of the operations lookup alone; `none` stands for a failed
resolution. -/
def resolvedName (domain : String) (lookup : Except GoError (List MeOrderDetailOperation)) :
    Option String :=
  if publicCloudProjectNameFormatRegex.MatchString domain then some domain
  else
    match lookup with
    | .error _ => none
    | .ok operations => some (lastMatchingName domain operations)

/-- The text `part` occurs in `text`. -/
def occursIn (part text : String) : Prop :=
  part.toList <:+: text.toList

instance occursInDecidable (part text : String) : Decidable (occursIn part text) := by
  unfold occursIn; infer_instance

/-! ## Go library functions, for running the functions on concrete inputs -/

/-- The digit of `n` below sixteen, from the given alphabet. -/
def hexDigit (alphabet : String) (n : Nat) : Char :=
  alphabet.toList.getD (n % 16) '0'

/-- The UTF-8 encoding of a rune. -/
def utf8Bytes (c : Char) : List Nat :=
  let n := c.toNat
  if n < 0x80 then [n]
  else if n < 0x800 then [0xC0 + n / 64, 0x80 + n % 64]
  else if n < 0x10000 then [0xE0 + n / 4096, 0x80 + n / 64 % 64, 0x80 + n % 64]
  else [0xF0 + n / 262144, 0x80 + n / 4096 % 64, 0x80 + n / 64 % 64, 0x80 + n % 64]

/-- `shouldEscape(c, encodePathSegment)` of Go's `net/url`. -/
def shouldEscape (c : Nat) : Bool :=
  if (97 ≤ c ∧ c ≤ 122) ∨ (65 ≤ c ∧ c ≤ 90) ∨ (48 ≤ c ∧ c ≤ 57) then false
  else if c ∈ ['-', '_', '.', '~'].map Char.toNat then false
  else if c ∈ ['$', '&', '+', ',', '/', ':', ';', '=', '?', '@'].map Char.toNat then
    c ∈ ['/', ';', ',', '?'].map Char.toNat
  else true

/-- `url.PathEscape`: every byte that `shouldEscape` names becomes `%XX`. -/
def urlPathEscape (s : String) : String :=
  String.mk ((s.toList.flatMap utf8Bytes).flatMap (fun b =>
    if shouldEscape b then
      ['%', hexDigit "0123456789ABCDEF" (b / 16), hexDigit "0123456789ABCDEF" b]
    else [Char.ofNat b]))

/-- `strconv.IsPrint`: decided in place up to U+00FF, looked up in the
generated tables `wide` above. -/
def strconvIsPrint (wide : Char → Bool) (r : Char) : Bool :=
  let n := r.toNat
  if n ≤ 0xFF then
    if 0x20 ≤ n ∧ n < 0x7F then true
    else if 0xA1 ≤ n then n != 0xAD
    else false
  else wide r

/-- `appendEscapedRune` of Go's `strconv`, for the double quote, neither
ASCII-only nor graphic-only. -/
def appendEscapedRune (wide : Char → Bool) (r : Char) : List Char :=
  let n := r.toNat
  let lower := hexDigit "0123456789abcdef"
  if n = 34 ∨ n = 92 then [Char.ofNat 92, r]
  else if strconvIsPrint wide r then [r]
  else if n = 7 then [Char.ofNat 92, 'a']
  else if n = 8 then [Char.ofNat 92, 'b']
  else if n = 12 then [Char.ofNat 92, 'f']
  else if n = 10 then [Char.ofNat 92, 'n']
  else if n = 13 then [Char.ofNat 92, 'r']
  else if n = 9 then [Char.ofNat 92, 't']
  else if n = 11 then [Char.ofNat 92, 'v']
  else if n < 0x20 ∨ n = 0x7F then [Char.ofNat 92, 'x', lower (n / 16), lower n]
  else if n < 0x10000 then
    [Char.ofNat 92, 'u', lower (n / 4096), lower (n / 256), lower (n / 16), lower n]
  else
    [Char.ofNat 92, 'U', lower (n / 268435456), lower (n / 16777216), lower (n / 1048576),
      lower (n / 65536), lower (n / 4096), lower (n / 256), lower (n / 16), lower n]

/-- `strconv.Quote`. -/
def strconvQuote (wide : Char → Bool) (s : String) : String :=
  String.mk (Char.ofNat 34 :: s.toList.flatMap (appendEscapedRune wide) ++ [Char.ofNat 34])

/-- One set of collaborators, to run the functions on concrete inputs: the
order has id 1 and one detail line, with id 2 and the given domain; the
operations lookup, the PUT and every POST answer as given; `orderDelete` calls
`terminate` and, when that yields a non-empty string, `confirmTerminate` with
it; `Quote` takes every rune above U+00FF as printable. -/
def sampleCollaborators (domain : String)
    (lookup : Except GoError (List MeOrderDetailOperation))
    (put post : Option GoError) : Collaborators where
  orderCreate := fun _ d _ => (d, none)
  orderRead := fun _ d => (d, .ok (⟨1⟩, [⟨2, domain⟩]))
  orderDetailOperations := fun _ _ _ => lookup
  orderDelete := fun terminate confirmTerminate s =>
    match terminate s with
    | (s, (_, some err)) => (s, some err)
    | (s, (token, none)) => if token = "" then (s, none) else confirmTerminate token s
  CheckDeleted := fun d err endpoint =>
    if err.apiCode = some 404 then (d.SetId "", none)
    else (d, some (Errorf ("calling " ++ endpoint ++ ":\n\t " ++ err.Error)))
  FromResource := fun d => (d.attrs.lookup "description").getD ""
  Put := fun _ _ _ => put
  Get := fun _ _ => .ok [("status", "ok")]
  Post := fun _ _ _ => post
  PathEscape := urlPathEscape
  Quote := strconvQuote (fun _ => true)

/-- An operation on the resource of the given name. -/
def operationNamed (name : String) : MeOrderDetailOperation := ⟨⟨name⟩⟩

/-- A fresh resource with id `"1"` and an empty call log. -/
def freshState : State := ⟨⟨"1", []⟩, []⟩

/-- A printable ASCII character other than the double quote and the
backslash: `strconv.Quote` copies it as it is. -/
def plainChar (c : Char) : Bool :=
  decide (0x20 ≤ c.toNat) && decide (c.toNat < 0x7F) && c.toNat != 34 && c.toNat != 92

/-- A text made of such characters only, as a verb or an escaped endpoint
is. -/
def plainText (s : String) : Bool :=
  s.toList.all plainChar

/-- The sample collaborators with an `orderRead` that writes to the resource
data it is handed: it records the order under the attribute `order`. -/
def orderWritingCollaborators (domain : String)
    (lookup : Except GoError (List MeOrderDetailOperation)) : Collaborators :=
  { sampleCollaborators domain lookup none none with
    orderRead := fun _ d => (d.Set "order" "1", .ok (⟨1⟩, [⟨2, domain⟩])) }

/-! # Theorems -/

/-! ## The matcher on the pattern -/

theorem runTimes_single (f : Cursor → List Cursor) (ok : Char → Bool)
    (hnil : ∀ p, f ⟨p, []⟩ = [])
    (hcons : ∀ p x xs, f ⟨p, x :: xs⟩ = if ok x = true then [⟨p + 1, xs⟩] else [])
    (n : Nat) :
    ∀ (p : Nat) (cs : List Char),
      runTimes f n ⟨p, cs⟩ =
        if n ≤ cs.length ∧ ∀ c ∈ cs.take n, ok c = true
        then [⟨p + n, cs.drop n⟩] else [] := by
  induction n with
  | zero => intro p cs; simp [runTimes]
  | succ n ih =>
    intro p cs
    cases cs with
    | nil => simp [runTimes, hnil]
    | cons x xs =>
      by_cases hx : ok x = true
      · simp [runTimes, hcons, hx, ih, Nat.add_assoc, Nat.add_comm 1 n]
      · simp [runTimes, hcons, hx]

theorem inClass_hex (c : Char) :
    inClass [('0', '9'), ('a', 'f')] c = true ↔ isLowerHexDigit c := by
  simp [inClass, isLowerHexDigit]

theorem run_hexClass_times (n p : Nat) (cs : List Char) :
    (Regexp.opRepeat hexClass n).run ⟨p, cs⟩ =
      if n ≤ cs.length ∧ ∀ c ∈ cs.take n, isLowerHexDigit c
      then [⟨p + n, cs.drop n⟩] else [] := by
  have h := runTimes_single (fun d => hexClass.run d) (inClass [('0', '9'), ('a', 'f')])
    (by intro p; simp [hexClass, Regexp.run])
    (by intro p x xs; simp [hexClass, Regexp.run]) n p cs
  simpa [Regexp.run, inClass_hex] using h

theorem run_concat (r s : Regexp) (c : Cursor) :
    (Regexp.opConcat r s).run c = (r.run c).flatMap (fun d => s.run d) := by
  simp [Regexp.run]

theorem run_literal (ch : Char) (p : Nat) (cs : List Char) :
    (Regexp.opLiteral ch).run ⟨p, cs⟩ =
      match cs with
      | [] => []
      | x :: xs => if x = ch then [⟨p + 1, xs⟩] else [] := by
  cases cs <;> simp [Regexp.run]

theorem run_endText (p : Nat) (cs : List Char) :
    Regexp.opEndText.run ⟨p, cs⟩ = if cs = [] then [⟨p, cs⟩] else [] := by
  cases cs <;> simp [Regexp.run]

theorem run_beginText (p : Nat) (cs : List Char) :
    Regexp.opBeginText.run ⟨p, cs⟩ = if p = 0 then [⟨p, cs⟩] else [] := by
  simp [Regexp.run]

theorem run_tail (p : Nat) (xs : List Char) :
    (Regexp.opConcat (.opRepeat hexClass 19) .opEndText).run ⟨p, xs⟩ ≠ [] ↔
      xs.length = 19 ∧ ∀ c ∈ xs, isLowerHexDigit c := by
  rw [run_concat, run_hexClass_times]
  constructor
  · intro h
    by_cases h19 : 19 ≤ xs.length ∧ ∀ c ∈ xs.take 19, isLowerHexDigit c
    swap
    · simp [h19] at h
    rw [if_pos h19] at h
    cases he : xs.drop 19 with
    | cons y ys => simp [run_endText, he] at h
    | nil =>
      have hlen : xs.length = 19 := by
        have := List.drop_eq_nil_iff.mp he
        omega
      refine ⟨hlen, ?_⟩
      intro c hc
      apply h19.2
      rw [List.take_of_length_le (by omega)]
      exact hc
  · rintro ⟨hlen, hall⟩
    have h3 : xs.take 19 = xs := List.take_of_length_le (by omega)
    have h4 : xs.drop 19 = [] := List.drop_of_length_le (by omega)
    have hc : 19 ≤ xs.length ∧ ∀ c ∈ xs.take 19, isLowerHexDigit c := by
      rw [h3]; exact ⟨by omega, hall⟩
    rw [if_pos hc]
    simp [run_endText, h4]

theorem run_middle (p : Nat) (l : List Char) :
    (Regexp.opConcat (.opLiteral '4')
      (.opConcat (.opRepeat hexClass 19) .opEndText)).run ⟨p, l⟩ ≠ [] ↔
      ∃ xs, l = '4' :: xs ∧ xs.length = 19 ∧ ∀ c ∈ xs, isLowerHexDigit c := by
  rw [run_concat, run_literal]
  cases l with
  | nil => simp
  | cons x xs =>
    by_cases hx : x = '4'
    · subst hx
      have := run_tail (p + 1) xs
      simpa using this
    · simp [hx]

theorem run_pattern (p : Nat) (cs : List Char) :
    publicCloudProjectNameFormatRegex.run ⟨p, cs⟩ ≠ [] ↔ p = 0 ∧ splitsAsProjectName cs := by
  unfold publicCloudProjectNameFormatRegex
  rw [run_concat, run_beginText]
  by_cases hp : p = 0
  swap
  · simp [hp]
  rw [if_pos hp]
  simp only [List.flatMap_cons, List.flatMap_nil, List.append_nil]
  rw [run_concat, run_hexClass_times]
  constructor
  · intro h
    by_cases h12 : 12 ≤ cs.length ∧ ∀ c ∈ cs.take 12, isLowerHexDigit c
    swap
    · simp [h12] at h
    rw [if_pos h12] at h
    simp only [List.flatMap_cons, List.flatMap_nil, List.append_nil] at h
    obtain ⟨xs, hd, hlen, hall⟩ := (run_middle _ _).mp h
    refine ⟨hp, cs.take 12, xs, ?_, ?_, hlen, h12.2, hall⟩
    · rw [← hd, List.take_append_drop]
    · simp [List.length_take]; omega
  · rintro ⟨-, a, b, rfl, ha, hbl, hha, hhb⟩
    have h1 : (a ++ '4' :: b).take 12 = a := by
      rw [← ha]; simp
    have h2 : (a ++ '4' :: b).drop 12 = '4' :: b := by
      rw [← ha]; simp
    have hc : 12 ≤ (a ++ '4' :: b).length ∧
        ∀ c ∈ (a ++ '4' :: b).take 12, isLowerHexDigit c := by
      rw [h1]; exact ⟨by simp [ha], hha⟩
    rw [if_pos hc]
    simp only [List.flatMap_cons, List.flatMap_nil, List.append_nil]
    rw [h2]
    exact (run_middle _ _).mpr ⟨b, rfl, hbl, hhb⟩

theorem searchFrom_succ (p : Nat) (cs : List Char) :
    publicCloudProjectNameFormatRegex.searchFrom (p + 1) cs = false := by
  induction cs generalizing p with
  | nil =>
    have := (run_pattern (p + 1) []).not
    simp [Regexp.searchFrom]
    simpa using this
  | cons x xs ih =>
    have := (run_pattern (p + 1) (x :: xs)).not
    simp [Regexp.searchFrom, ih]
    simpa using this

theorem matchString_iff_splits (s : String) :
    publicCloudProjectNameFormatRegex.MatchString s = true ↔ splitsAsProjectName s.toList := by
  unfold Regexp.MatchString
  have h := run_pattern 0 s.toList
  cases hs : s.toList with
  | nil =>
    rw [hs] at h
    simp only [Regexp.searchFrom]
    rw [Ne, ← List.isEmpty_iff] at h
    simpa using h
  | cons x xs =>
    rw [hs] at h
    simp only [Regexp.searchFrom, searchFrom_succ, Bool.or_false]
    rw [Ne, ← List.isEmpty_iff] at h
    simpa using h

theorem splits_iff_shape (cs : List Char) :
    splitsAsProjectName cs ↔ hasProjectNameShape cs := by
  constructor
  · rintro ⟨a, b, rfl, ha, hb, hha, hhb⟩
    refine ⟨by simp [ha, hb], ?_, ?_⟩
    · rw [List.getElem?_append_right (by omega)]; simp [ha]
    · intro i c hi hc
      by_cases hlt : i < 12
      · rw [List.getElem?_append_left (by omega)] at hc
        exact hha c (List.getElem?_mem hc)
      · rw [List.getElem?_append_right (by omega)] at hc
        have : i - a.length = (i - 13) + 1 := by omega
        rw [this, List.getElem?_cons_succ] at hc
        exact hhb c (List.getElem?_mem hc)
  · rintro ⟨hlen, h4, hall⟩
    refine ⟨cs.take 12, cs.drop 13, ?_, by simp [hlen], by simp [hlen], ?_, ?_⟩
    · have h12 : cs.drop 12 = '4' :: cs.drop 13 := by
        have hlt : 12 < cs.length := by omega
        rw [List.drop_eq_getElem_cons hlt]
        rw [List.getElem?_eq_getElem hlt] at h4
        simp at h4
        rw [h4]
      rw [← h12, List.take_append_drop]
    · intro c hc
      obtain ⟨i, hi, rfl⟩ := List.getElem_of_mem hc
      have hi12 : i < 12 := by simp at hi; omega
      apply hall i _ (by omega)
      rw [List.getElem_take]
      exact List.getElem?_eq_getElem _
    · intro c hc
      obtain ⟨i, hi, rfl⟩ := List.getElem_of_mem hc
      apply hall (13 + i) _ (by omega)
      rw [List.getElem_drop]
      exact List.getElem?_eq_getElem _

/-! ## The scan of the operations -/

theorem lastMatchingName_cons (domain : String) (o : MeOrderDetailOperation)
    (ops : List MeOrderDetailOperation) :
    lastMatchingName domain (o :: ops) = lastMatchingName (scanStep domain o) ops := by
  unfold lastMatchingName scanStep
  by_cases ho : publicCloudProjectNameFormatRegex.MatchString o.Resource.Name = true
  · simp only [List.filter_cons, ho, if_true, Bool.not_true, Bool.false_eq_true, if_false]
    cases hf : List.filter
        (fun o => publicCloudProjectNameFormatRegex.MatchString o.Resource.Name) ops with
    | nil => simp
    | cons y ys =>
      rw [List.getLast?_cons_cons, List.getLast?_eq_getLast _ (List.cons_ne_nil y ys)]
  · simp [List.filter_cons, ho]

theorem foldl_scanStep (ops : List MeOrderDetailOperation) :
    ∀ domain : String, ops.foldl scanStep domain = lastMatchingName domain ops := by
  induction ops with
  | nil => intro domain; simp [lastMatchingName]
  | cons o ops ih =>
    intro domain
    rw [List.foldl_cons, ih, lastMatchingName_cons]

theorem lastMatchingName_split (domain : String) (pre post : List MeOrderDetailOperation)
    (o : MeOrderDetailOperation)
    (ho : publicCloudProjectNameFormatRegex.MatchString o.Resource.Name = true)
    (hpost : ∀ q ∈ post, publicCloudProjectNameFormatRegex.MatchString q.Resource.Name = false) :
    lastMatchingName domain (pre ++ o :: post) = o.Resource.Name := by
  have hf : List.filter
      (fun o => publicCloudProjectNameFormatRegex.MatchString o.Resource.Name) post = [] := by
    rw [List.filter_eq_nil_iff]
    intro q hq
    simp [hpost q hq]
  unfold lastMatchingName
  simp [List.filter_append, List.filter_cons, ho, hf]

theorem exists_last_matching (ops : List MeOrderDetailOperation)
    (h : ∃ o ∈ ops, publicCloudProjectNameFormatRegex.MatchString o.Resource.Name = true) :
    ∃ pre o post, ops = pre ++ o :: post ∧
      publicCloudProjectNameFormatRegex.MatchString o.Resource.Name = true ∧
      ∀ q ∈ post, publicCloudProjectNameFormatRegex.MatchString q.Resource.Name = false := by
  induction ops with
  | nil => simp at h
  | cons a ops ih =>
    by_cases hrest : ∃ o ∈ ops,
        publicCloudProjectNameFormatRegex.MatchString o.Resource.Name = true
    · obtain ⟨pre, o, post, hsplit, ho, hpost⟩ := ih hrest
      exact ⟨a :: pre, o, post, by simp [hsplit], ho, hpost⟩
    · obtain ⟨o, hmem, ho⟩ := h
      have hoa : o = a := by
        rcases List.mem_cons.mp hmem with h1 | h1
        · exact h1
        · exact absurd ⟨o, h1, ho⟩ hrest
      subst hoa
      refine ⟨[], o, ops, by simp, ho, ?_⟩
      intro q hq
      by_contra hne
      exact hrest ⟨q, hq, by simpa using hne⟩

theorem firstMatchingName_of_same (domain : String) (ops : List MeOrderDetailOperation)
    (name : String)
    (hex : ∃ o ∈ ops, publicCloudProjectNameFormatRegex.MatchString o.Resource.Name = true)
    (hsame : ∀ o ∈ ops, publicCloudProjectNameFormatRegex.MatchString o.Resource.Name = true →
      o.Resource.Name = name) :
    firstMatchingName domain ops = name := by
  unfold firstMatchingName
  cases hfind : ops.find?
      (fun o => publicCloudProjectNameFormatRegex.MatchString o.Resource.Name) with
  | none =>
    obtain ⟨o, hmem, ho⟩ := hex
    have := List.find?_eq_none.mp hfind o hmem
    simp [ho] at this
  | some o =>
    have hm := List.mem_of_find?_eq_some hfind
    have hp := List.find?_some hfind
    exact hsame o hm hp

/-! ## The three resolvers -/

theorem update_serviceName_eq_read (x : Collaborators) (order : MeOrder)
    (details0 : MeOrderDetail) (s : State) :
    resourceCloudProjectUpdate.serviceName x order details0 s =
      resourceCloudProjectRead.serviceName x order details0 s := rfl

theorem delete_serviceName_eq_read (x : Collaborators) (order : MeOrder)
    (details0 : MeOrderDetail) (s : State) :
    resourceCloudProjectDelete.serviceName x order details0 s =
      resourceCloudProjectRead.serviceName x order details0 s := rfl

theorem read_serviceName_matching (x : Collaborators) (order : MeOrder)
    (details0 : MeOrderDetail) (s : State)
    (h : publicCloudProjectNameFormatRegex.MatchString details0.Domain = true) :
    resourceCloudProjectRead.serviceName x order details0 s = (s, .ok details0.Domain) := by
  simp [resourceCloudProjectRead.serviceName, h]

theorem read_serviceName_ok (x : Collaborators) (order : MeOrder)
    (details0 : MeOrderDetail) (s : State) (operations : List MeOrderDetailOperation)
    (h : publicCloudProjectNameFormatRegex.MatchString details0.Domain = false)
    (hops : x.orderDetailOperations s.calls order.OrderId details0.OrderDetailId =
      .ok operations) :
    resourceCloudProjectRead.serviceName x order details0 s =
      (⟨s.d, s.calls ++ [.orderDetailOperations order.OrderId details0.OrderDetailId]⟩,
        .ok (lastMatchingName details0.Domain operations)) := by
  simp [resourceCloudProjectRead.serviceName, h, callOrderDetailOperations, hops,
    foldl_scanStep]

theorem read_serviceName_error (x : Collaborators) (order : MeOrder)
    (details0 : MeOrderDetail) (s : State) (err : GoError)
    (h : publicCloudProjectNameFormatRegex.MatchString details0.Domain = false)
    (hops : x.orderDetailOperations s.calls order.OrderId details0.OrderDetailId =
      .error err) :
    resourceCloudProjectRead.serviceName x order details0 s =
      (⟨s.d, s.calls ++ [.orderDetailOperations order.OrderId details0.OrderDetailId]⟩,
        .error (Errorf
          ("Could not read cloudProject order details operations: " ++ x.Quote err.Error))) := by
  simp [resourceCloudProjectRead.serviceName, h, callOrderDetailOperations, hops]

theorem read_serviceName_resolved (x : Collaborators) (order : MeOrder)
    (details0 : MeOrderDetail) (s : State) :
    (resourceCloudProjectRead.serviceName x order details0 s).2.toOption =
      resolvedName details0.Domain
        (x.orderDetailOperations s.calls order.OrderId details0.OrderDetailId) := by
  cases h : publicCloudProjectNameFormatRegex.MatchString details0.Domain with
  | true => simp [read_serviceName_matching x order details0 s h, resolvedName, h, Except.toOption]
  | false =>
    cases hops : x.orderDetailOperations s.calls order.OrderId details0.OrderDetailId with
    | error err =>
      simp [read_serviceName_error x order details0 s err h hops, resolvedName, h,
        Except.toOption]
    | ok operations =>
      simp [read_serviceName_ok x order details0 s operations h hops, resolvedName, h,
        Except.toOption]

/-! ## The format check -/

theorem matchString_iff_shape (s : String) :
    publicCloudProjectNameFormatRegex.MatchString s = true ↔ hasProjectNameShape s.toList :=
  (matchString_iff_splits s).trans (splits_iff_shape s.toList)

theorem matchString_false_of_length (s : String) (h : s.length ≠ 32) :
    publicCloudProjectNameFormatRegex.MatchString s = false := by
  cases hm : publicCloudProjectNameFormatRegex.MatchString s with
  | false => rfl
  | true => exact absurd ((matchString_iff_shape s).mp hm).1 h

theorem matchString_false_of_newline (s : String) :
    publicCloudProjectNameFormatRegex.MatchString (s ++ "\n") = false := by
  cases hm : publicCloudProjectNameFormatRegex.MatchString (s ++ "\n") with
  | false => rfl
  | true =>
    obtain ⟨hlen, -, hall⟩ := (matchString_iff_shape _).mp hm
    have hl : (s ++ "\n").toList = s.toList ++ ['\n'] := by simp
    rw [hl] at hlen hall
    have h31 : s.toList.length = 31 := by simpa using hlen
    have hget : (s.toList ++ ['\n'])[31]? = some '\n' := by
      rw [List.getElem?_append_right (by omega), h31]
      rfl
    exact absurd (hall 31 '\n' (by decide) hget) (by decide)

/-- C3. Format check: a string matches `publicCloudProjectNameFormatRegex` if
and only if it has exactly 32 characters, the character at index 12 is the
literal `4`, and every other character is a hexadecimal digit in `0-9` or
`a-f`. In particular a string of another length, a string with a trailing
newline, the empty string and `"*"` do not match. -/
theorem C3_format_check (s : String) :
    (publicCloudProjectNameFormatRegex.MatchString s = true ↔
      (s.toList.length = 32 ∧ s.toList[12]? = some '4' ∧
        ∀ i c, i ≠ 12 → s.toList[i]? = some c → ('0' ≤ c ∧ c ≤ '9') ∨ ('a' ≤ c ∧ c ≤ 'f'))) ∧
    (s.length ≠ 32 → publicCloudProjectNameFormatRegex.MatchString s = false) ∧
    publicCloudProjectNameFormatRegex.MatchString (s ++ "\n") = false ∧
    publicCloudProjectNameFormatRegex.MatchString "" = false ∧
    publicCloudProjectNameFormatRegex.MatchString "*" = false :=
  ⟨matchString_iff_shape s, matchString_false_of_length s, matchString_false_of_newline s,
    by decide, by decide⟩

/-- C3, at concrete strings: a well-formed name matches; the same name one
character short, in upper case, with another digit at index 12 or followed by
a newline does not. -/
theorem C3_format_check_witness :
    publicCloudProjectNameFormatRegex.MatchString "aabbccddeeff40000000000000000000" = true ∧
    publicCloudProjectNameFormatRegex.MatchString "aabbccddeeff4000000000000000000" = false ∧
    publicCloudProjectNameFormatRegex.MatchString "AABBCCDDEEFF40000000000000000000" = false ∧
    publicCloudProjectNameFormatRegex.MatchString "aabbccddeeff50000000000000000000" = false ∧
    publicCloudProjectNameFormatRegex.MatchString ("aabbccddeeff40000000000000000000" ++ "\n") =
      false :=
  ⟨by decide, (C3_format_check "aabbccddeeff4000000000000000000").2.1 (by decide),
    by decide, by decide, (C3_format_check "aabbccddeeff40000000000000000000").2.2.1⟩

/-! ## Resolution of the service name -/

/-- C1. When the first detail domain matches the format, each of the three
resolvers (in Update, Read and Delete) returns that domain unchanged and
leaves the state, hence the call log, as it found it: no operations lookup is
made, whatever the lookup would have answered. -/
theorem C1_matching_domain_needs_no_lookup (x : Collaborators) (order : MeOrder)
    (details0 : MeOrderDetail) (s : State)
    (h : publicCloudProjectNameFormatRegex.MatchString details0.Domain = true) :
    resourceCloudProjectUpdate.serviceName x order details0 s = (s, .ok details0.Domain) ∧
    resourceCloudProjectRead.serviceName x order details0 s = (s, .ok details0.Domain) ∧
    resourceCloudProjectDelete.serviceName x order details0 s = (s, .ok details0.Domain) := by
  rw [update_serviceName_eq_read, delete_serviceName_eq_read]
  exact ⟨read_serviceName_matching x order details0 s h,
    read_serviceName_matching x order details0 s h,
    read_serviceName_matching x order details0 s h⟩

/-- C1, at a concrete order whose domain is a well-formed project name, with
a lookup that would have answered another name. -/
theorem C1_matching_domain_needs_no_lookup_witness :
    publicCloudProjectNameFormatRegex.MatchString "aabbccddeeff40000000000000000000" = true ∧
    resourceCloudProjectRead.serviceName
        (sampleCollaborators "aabbccddeeff40000000000000000000"
          (.ok [operationNamed "aabbccddeeff40000000000000000001"]) none none)
        ⟨1⟩ ⟨2, "aabbccddeeff40000000000000000000"⟩ freshState =
      (freshState, .ok "aabbccddeeff40000000000000000000") :=
  ⟨by decide,
    (C1_matching_domain_needs_no_lookup
      (sampleCollaborators "aabbccddeeff40000000000000000000"
        (.ok [operationNamed "aabbccddeeff40000000000000000001"]) none none)
      ⟨1⟩ ⟨2, "aabbccddeeff40000000000000000000"⟩ freshState (by decide)).2.1⟩

/-- C2, as stated, fails: with the domain `"*"` and two operations of
different well-formed names, the resolver returns the name of the second one,
not of the first. -/
theorem C2_first_matching_counterexample :
    (resourceCloudProjectRead.serviceName
        (sampleCollaborators "*"
          (.ok [operationNamed "aabbccddeeff40000000000000000000",
            operationNamed "aabbccddeeff40000000000000000001"]) none none)
        ⟨1⟩ ⟨2, "*"⟩ freshState).2 = .ok "aabbccddeeff40000000000000000001" ∧
    firstMatchingName "*" [operationNamed "aabbccddeeff40000000000000000000",
        operationNamed "aabbccddeeff40000000000000000001"] =
      "aabbccddeeff40000000000000000000" ∧
    (resourceCloudProjectRead.serviceName
        (sampleCollaborators "*"
          (.ok [operationNamed "aabbccddeeff40000000000000000000",
            operationNamed "aabbccddeeff40000000000000000001"]) none none)
        ⟨1⟩ ⟨2, "*"⟩ freshState).2 ≠
      .ok (firstMatchingName "*" [operationNamed "aabbccddeeff40000000000000000000",
        operationNamed "aabbccddeeff40000000000000000001"]) := by
  decide

/-- C2, amended. When the first detail domain does not match the format and
the operations lookup succeeds, each of the three resolvers makes exactly one
`orderDetailOperations` call (for the order id and the first detail id) and
returns the resource name of the last operation, in returned order, whose
resource name matches the format, or the domain if none matches. -/
theorem C2_other_domain_one_lookup_last_match (x : Collaborators) (order : MeOrder)
    (details0 : MeOrderDetail) (s : State) (operations : List MeOrderDetailOperation)
    (h : publicCloudProjectNameFormatRegex.MatchString details0.Domain = false)
    (hops : x.orderDetailOperations s.calls order.OrderId details0.OrderDetailId =
      .ok operations) :
    resourceCloudProjectUpdate.serviceName x order details0 s =
      (⟨s.d, s.calls ++ [.orderDetailOperations order.OrderId details0.OrderDetailId]⟩,
        .ok (lastMatchingName details0.Domain operations)) ∧
    resourceCloudProjectRead.serviceName x order details0 s =
      (⟨s.d, s.calls ++ [.orderDetailOperations order.OrderId details0.OrderDetailId]⟩,
        .ok (lastMatchingName details0.Domain operations)) ∧
    resourceCloudProjectDelete.serviceName x order details0 s =
      (⟨s.d, s.calls ++ [.orderDetailOperations order.OrderId details0.OrderDetailId]⟩,
        .ok (lastMatchingName details0.Domain operations)) := by
  rw [update_serviceName_eq_read, delete_serviceName_eq_read]
  exact ⟨read_serviceName_ok x order details0 s operations h hops,
    read_serviceName_ok x order details0 s operations h hops,
    read_serviceName_ok x order details0 s operations h hops⟩

/-- C2 amended, at the domain `"*"` with two well-formed operation names:
one lookup, the second name is returned. -/
theorem C2_other_domain_one_lookup_last_match_witness :
    resourceCloudProjectRead.serviceName
        (sampleCollaborators "*"
          (.ok [operationNamed "aabbccddeeff40000000000000000000",
            operationNamed "aabbccddeeff40000000000000000001"]) none none)
        ⟨1⟩ ⟨2, "*"⟩ freshState =
      (⟨⟨"1", []⟩, [.orderDetailOperations 1 2]⟩,
        .ok (lastMatchingName "*" [operationNamed "aabbccddeeff40000000000000000000",
            operationNamed "aabbccddeeff40000000000000000001"])) ∧
    lastMatchingName "*" [operationNamed "aabbccddeeff40000000000000000000",
        operationNamed "aabbccddeeff40000000000000000001"] =
      "aabbccddeeff40000000000000000001" :=
  ⟨(C2_other_domain_one_lookup_last_match
      (sampleCollaborators "*"
        (.ok [operationNamed "aabbccddeeff40000000000000000000",
          operationNamed "aabbccddeeff40000000000000000001"]) none none)
      ⟨1⟩ ⟨2, "*"⟩ freshState _ (by decide) rfl).2.1, by decide⟩

/-- C4. For every order, first detail and answer of the operations lookup,
the resolvers of Update, Read and Delete give the same result (the same state
and the same service name, or the same error), and the outcome of each is the
function `resolvedName` of the first detail domain and of the answer of the
lookup alone: the same inputs give the same service name. -/
theorem C4_same_resolution_everywhere (x : Collaborators) (order : MeOrder)
    (details0 : MeOrderDetail) (s : State) :
    resourceCloudProjectUpdate.serviceName x order details0 s =
      resourceCloudProjectRead.serviceName x order details0 s ∧
    resourceCloudProjectDelete.serviceName x order details0 s =
      resourceCloudProjectRead.serviceName x order details0 s ∧
    (resourceCloudProjectUpdate.serviceName x order details0 s).2.toOption =
      resolvedName details0.Domain
        (x.orderDetailOperations s.calls order.OrderId details0.OrderDetailId) ∧
    (resourceCloudProjectRead.serviceName x order details0 s).2.toOption =
      resolvedName details0.Domain
        (x.orderDetailOperations s.calls order.OrderId details0.OrderDetailId) ∧
    (resourceCloudProjectDelete.serviceName x order details0 s).2.toOption =
      resolvedName details0.Domain
        (x.orderDetailOperations s.calls order.OrderId details0.OrderDetailId) := by
  rw [update_serviceName_eq_read, delete_serviceName_eq_read]
  exact ⟨rfl, rfl, read_serviceName_resolved x order details0 s,
    read_serviceName_resolved x order details0 s,
    read_serviceName_resolved x order details0 s⟩

/-! ## Texts of the errors -/

theorem occursIn_self (p : String) : occursIn p p :=
  List.infix_refl _

theorem occursIn_append_right (p t u : String) (h : occursIn p t) : occursIn p (t ++ u) := by
  show p.data <:+: (t ++ u).data
  rw [String.data_append]
  exact List.IsInfix.trans h (List.infix_append' [] _ _)

theorem occursIn_append_left (p t u : String) (h : occursIn p u) : occursIn p (t ++ u) := by
  show p.data <:+: (t ++ u).data
  rw [String.data_append]
  have h2 := List.infix_append t.data u.data []
  rw [List.append_nil] at h2
  exact List.IsInfix.trans h h2

theorem appendEscapedRune_plain (wide : Char → Bool) (c : Char) (h : plainChar c = true) :
    appendEscapedRune wide c = [c] := by
  simp only [plainChar, Bool.and_eq_true, decide_eq_true_eq, bne_iff_ne, ne_eq] at h
  obtain ⟨⟨⟨h1, h2⟩, h3⟩, h4⟩ := h
  have hp : strconvIsPrint wide c = true := by
    unfold strconvIsPrint
    have hle : c.toNat ≤ 0xFF := by omega
    simp [hle, h1, h2]
  unfold appendEscapedRune
  simp [h3, h4, hp]

theorem flatMap_appendEscapedRune_plain (wide : Char → Bool) (l : List Char)
    (h : l.all plainChar = true) :
    l.flatMap (appendEscapedRune wide) = l := by
  induction l with
  | nil => rfl
  | cons c cs ih =>
    simp only [List.all_cons, Bool.and_eq_true] at h
    rw [List.flatMap_cons, appendEscapedRune_plain wide c h.1, ih h.2]
    rfl

theorem occursIn_strconvQuote (wide : Char → Bool) (part text : String)
    (hplain : plainText part = true) (h : occursIn part text) :
    occursIn part (strconvQuote wide text) := by
  obtain ⟨a, b, hab⟩ := h
  refine ⟨Char.ofNat 34 :: a.flatMap (appendEscapedRune wide),
    b.flatMap (appendEscapedRune wide) ++ [Char.ofNat 34], ?_⟩
  show _ = Char.ofNat 34 :: text.toList.flatMap (appendEscapedRune wide) ++ [Char.ofNat 34]
  rw [← hab, List.flatMap_append, List.flatMap_append,
    flatMap_appendEscapedRune_plain wide part.toList hplain]
  simp

theorem occursIn_quoted_text (x : Collaborators) (wide : Char → Bool) (part lead text : String)
    (hq : ∀ t, x.Quote t = strconvQuote wide t)
    (hplain : plainText part = true) (h : occursIn part text) :
    occursIn part (lead ++ x.Quote text) := by
  rw [hq]
  exact occursIn_append_left part lead _ (occursIn_strconvQuote wide part text hplain h)

/-! ## The CRUD functions on their failure paths -/

theorem read_serviceName_calls (x : Collaborators) (order : MeOrder)
    (details0 : MeOrderDetail) (s : State)
    (h : publicCloudProjectNameFormatRegex.MatchString details0.Domain = false) :
    (resourceCloudProjectRead.serviceName x order details0 s).1 =
      ⟨s.d, s.calls ++ [.orderDetailOperations order.OrderId details0.OrderDetailId]⟩ := by
  cases hops : x.orderDetailOperations s.calls order.OrderId details0.OrderDetailId with
  | error err => rw [read_serviceName_error x order details0 s err h hops]
  | ok operations => rw [read_serviceName_ok x order details0 s operations h hops]

theorem read_of_lookup_error (x : Collaborators) (s : State) (d1 : ResourceData)
    (order : MeOrder) (details0 : MeOrderDetail) (rest : List MeOrderDetail) (err : GoError)
    (hread : x.orderRead s.calls s.d = (d1, .ok (order, details0 :: rest)))
    (hdom : publicCloudProjectNameFormatRegex.MatchString details0.Domain = false)
    (hlook : x.orderDetailOperations (s.calls ++ [.orderRead s.d.Id]) order.OrderId
      details0.OrderDetailId = .error err) :
    resourceCloudProjectRead x s =
      (⟨d1, s.calls ++ [.orderRead s.d.Id,
          .orderDetailOperations order.OrderId details0.OrderDetailId]⟩,
        .returned (some (Errorf
          ("Could not read cloudProject order details operations: " ++
            x.Quote err.Error)))) := by
  have h := read_serviceName_error x order details0 ⟨d1, s.calls ++ [.orderRead s.d.Id]⟩ err
    hdom hlook
  simp [resourceCloudProjectRead, callOrderRead, hread, h]

theorem update_of_lookup_error (x : Collaborators) (s : State) (d1 : ResourceData)
    (order : MeOrder) (details0 : MeOrderDetail) (rest : List MeOrderDetail) (err : GoError)
    (hread : x.orderRead s.calls s.d = (d1, .ok (order, details0 :: rest)))
    (hdom : publicCloudProjectNameFormatRegex.MatchString details0.Domain = false)
    (hlook : x.orderDetailOperations (s.calls ++ [.orderRead s.d.Id]) order.OrderId
      details0.OrderDetailId = .error err) :
    resourceCloudProjectUpdate x s =
      (⟨d1, s.calls ++ [.orderRead s.d.Id,
          .orderDetailOperations order.OrderId details0.OrderDetailId]⟩,
        .returned (some (Errorf
          ("Could not read cloudProject order details operations: " ++
            x.Quote err.Error)))) := by
  have h := read_serviceName_error x order details0 ⟨d1, s.calls ++ [.orderRead s.d.Id]⟩ err
    hdom hlook
  simp [resourceCloudProjectUpdate, callOrderRead, hread, update_serviceName_eq_read, h]

theorem delete_of_lookup_error (x : Collaborators) (s : State) (d1 : ResourceData)
    (order : MeOrder) (details0 : MeOrderDetail) (rest : List MeOrderDetail) (err : GoError)
    (hread : x.orderRead s.calls s.d = (d1, .ok (order, details0 :: rest)))
    (hdom : publicCloudProjectNameFormatRegex.MatchString details0.Domain = false)
    (hlook : x.orderDetailOperations (s.calls ++ [.orderRead s.d.Id]) order.OrderId
      details0.OrderDetailId = .error err) :
    resourceCloudProjectDelete x s =
      (⟨d1, s.calls ++ [.orderRead s.d.Id,
          .orderDetailOperations order.OrderId details0.OrderDetailId]⟩,
        .returned (some (Errorf
          ("Could not read cloudProject order details operations: " ++
            x.Quote err.Error)))) := by
  have h := read_serviceName_error x order details0 ⟨d1, s.calls ++ [.orderRead s.d.Id]⟩ err
    hdom hlook
  simp [resourceCloudProjectDelete, callOrderRead, hread, delete_serviceName_eq_read, h]

theorem update_of_put_error (x : Collaborators) (s s2 : State) (d1 : ResourceData)
    (order : MeOrder) (details0 : MeOrderDetail) (rest : List MeOrderDetail)
    (serviceName : String) (err : GoError)
    (hread : x.orderRead s.calls s.d = (d1, .ok (order, details0 :: rest)))
    (hname : resourceCloudProjectUpdate.serviceName x order details0
      ⟨d1, s.calls ++ [.orderRead s.d.Id]⟩ = (s2, .ok serviceName))
    (hput : x.Put s2.calls ("/cloud/project/" ++ x.PathEscape serviceName)
      (x.FromResource s2.d) = some err) :
    resourceCloudProjectUpdate x s =
      (⟨s2.d, s2.calls ++ [.Put ("/cloud/project/" ++ x.PathEscape serviceName)
          (x.FromResource s2.d)]⟩,
        .returned (some (Errorf ("calling Put " ++
          ("/cloud/project/" ++ x.PathEscape serviceName) ++ ": " ++ x.Quote err.Error)))) := by
  simp [resourceCloudProjectUpdate, callOrderRead, hread, hname, callPut, hput]

theorem update_of_put_ok (x : Collaborators) (s s2 : State) (d1 : ResourceData)
    (order : MeOrder) (details0 : MeOrderDetail) (rest : List MeOrderDetail)
    (serviceName : String)
    (hread : x.orderRead s.calls s.d = (d1, .ok (order, details0 :: rest)))
    (hname : resourceCloudProjectUpdate.serviceName x order details0
      ⟨d1, s.calls ++ [.orderRead s.d.Id]⟩ = (s2, .ok serviceName))
    (hput : x.Put s2.calls ("/cloud/project/" ++ x.PathEscape serviceName)
      (x.FromResource s2.d) = none) :
    resourceCloudProjectUpdate x s =
      resourceCloudProjectRead x
        ⟨s2.d, s2.calls ++ [.Put ("/cloud/project/" ++ x.PathEscape serviceName)
          (x.FromResource s2.d)]⟩ := by
  simp [resourceCloudProjectUpdate, callOrderRead, hread, hname, callPut, hput]

theorem terminate_of_post (x : Collaborators) (serviceName : String) (s : State) :
    resourceCloudProjectDelete.terminate x serviceName s =
      (⟨s.d, s.calls ++
          [.Post ("/cloud/project/" ++ x.PathEscape serviceName ++ "/terminate") none]⟩,
        match x.Post s.calls ("/cloud/project/" ++ x.PathEscape serviceName ++ "/terminate")
            none with
        | some err =>
          if err.apiCode = some 404 ∨ err.apiCode = some 460 then ("", none)
          else ("", some (Errorf ("calling Post " ++
            ("/cloud/project/" ++ x.PathEscape serviceName ++ "/terminate") ++ ":\n\t " ++
            x.Quote err.Error)))
        | none => (serviceName, none)) := by
  unfold resourceCloudProjectDelete.terminate callPost
  cases hp : x.Post s.calls ("/cloud/project/" ++ x.PathEscape serviceName ++ "/terminate")
      none with
  | none => simp [hp]
  | some err =>
    by_cases hc : err.apiCode = some 404 ∨ err.apiCode = some 460
    · simp [hp, hc]
    · simp [hp, hc]

theorem confirmTerminate_of_post (x : Collaborators) (serviceName token : String)
    (s : State) :
    resourceCloudProjectDelete.confirmTerminate x serviceName token s =
      (⟨s.d, s.calls ++
          [.Post ("/cloud/project/" ++ x.PathEscape serviceName ++ "/confirmTermination")
            (some token)]⟩,
        match x.Post s.calls
            ("/cloud/project/" ++ x.PathEscape serviceName ++ "/confirmTermination")
            (some token) with
        | some err =>
          some (Errorf ("calling Post " ++
            ("/cloud/project/" ++ x.PathEscape serviceName ++ "/confirmTermination") ++
            ":\n\t " ++ x.Quote err.Error))
        | none => none) := by
  unfold resourceCloudProjectDelete.confirmTerminate callPost
  cases hp : x.Post s.calls
      ("/cloud/project/" ++ x.PathEscape serviceName ++ "/confirmTermination") (some token) with
  | none => simp [hp]
  | some err => simp [hp]

theorem calling_names_verb_and_endpoint (verb endpoint mid quoted : String) :
    occursIn verb ("calling " ++ verb ++ " " ++ endpoint ++ mid ++ quoted) ∧
    occursIn endpoint ("calling " ++ verb ++ " " ++ endpoint ++ mid ++ quoted) := by
  refine ⟨?_, ?_⟩
  · apply occursIn_append_right
    apply occursIn_append_right
    apply occursIn_append_right
    apply occursIn_append_right
    apply occursIn_append_left
    exact occursIn_self verb
  · apply occursIn_append_right
    apply occursIn_append_right
    apply occursIn_append_left
    exact occursIn_self endpoint

theorem calling_put_text (endpoint quoted : String) :
    "calling Put " ++ endpoint ++ ": " ++ quoted =
      "calling " ++ "Put" ++ " " ++ endpoint ++ ": " ++ quoted := by
  have : "calling Put " = "calling " ++ "Put" ++ " " := by decide
  rw [this]

theorem calling_post_text (endpoint quoted : String) :
    "calling Post " ++ endpoint ++ ":\n\t " ++ quoted =
      "calling " ++ "Post" ++ " " ++ endpoint ++ ":\n\t " ++ quoted := by
  have : "calling Post " = "calling " ++ "Post" ++ " " := by decide
  rw [this]

/-- C5. The `terminate` step of Delete posts once to
`/cloud/project/{service_name}/terminate`. When the POST fails with an
`ovh.APIError` of code 404 or 460 it returns no error and the empty token;
for every other failure of the POST it returns an error (and the empty
token); when the POST succeeds it returns no error and the service name as
token. So it returns no error together with a non-empty token only when the
POST succeeded, and then the token is the service name: a not-found or
already-terminating resource neither fails the step nor yields a token. -/
theorem C5_terminate_suppresses_404_and_460 (x : Collaborators) (serviceName : String)
    (s : State) :
    (resourceCloudProjectDelete.terminate x serviceName s).1.calls =
      s.calls ++ [.Post ("/cloud/project/" ++ x.PathEscape serviceName ++ "/terminate") none] ∧
    (∀ err,
      x.Post s.calls ("/cloud/project/" ++ x.PathEscape serviceName ++ "/terminate") none =
        some err →
      err.apiCode = some 404 ∨ err.apiCode = some 460 →
      (resourceCloudProjectDelete.terminate x serviceName s).2 = ("", none)) ∧
    (∀ err,
      x.Post s.calls ("/cloud/project/" ++ x.PathEscape serviceName ++ "/terminate") none =
        some err →
      ¬ (err.apiCode = some 404 ∨ err.apiCode = some 460) →
      ∃ e, (resourceCloudProjectDelete.terminate x serviceName s).2 = ("", some e)) ∧
    (x.Post s.calls ("/cloud/project/" ++ x.PathEscape serviceName ++ "/terminate") none =
        none →
      (resourceCloudProjectDelete.terminate x serviceName s).2 = (serviceName, none)) ∧
    (∀ token,
      (resourceCloudProjectDelete.terminate x serviceName s).2 = (token, none) →
      token ≠ "" →
      x.Post s.calls ("/cloud/project/" ++ x.PathEscape serviceName ++ "/terminate") none =
        none ∧ token = serviceName) := by
  rw [terminate_of_post]
  refine ⟨rfl, ?_, ?_, ?_, ?_⟩
  · intro err hp hc
    simp only [hp, if_pos hc]
  · intro err hp hc
    simp only [hp, if_neg hc]
    exact ⟨_, rfl⟩
  · intro hp
    simp only [hp]
  · intro token ht hne
    cases hp : x.Post s.calls
        ("/cloud/project/" ++ x.PathEscape serviceName ++ "/terminate") none with
    | none =>
      simp only [hp] at ht
      exact ⟨rfl, by simpa using (congrArg Prod.fst ht).symm⟩
    | some err =>
      simp only [hp] at ht
      by_cases hc : err.apiCode = some 404 ∨ err.apiCode = some 460
      · rw [if_pos hc] at ht
        exact absurd (congrArg Prod.fst ht).symm hne
      · rw [if_neg hc] at ht
        simp at ht

/-- C5, at concrete answers of the POST: a 404 and a 460 give no error and no
token, a 500 gives an error, a success gives the service name. -/
theorem C5_terminate_suppresses_404_and_460_witness :
    (resourceCloudProjectDelete.terminate
        (sampleCollaborators "*" (.ok []) none (some ⟨"not found", some 404⟩))
        "aabbccddeeff40000000000000000000" freshState).2 = ("", none) ∧
    (resourceCloudProjectDelete.terminate
        (sampleCollaborators "*" (.ok []) none (some ⟨"terminating", some 460⟩))
        "aabbccddeeff40000000000000000000" freshState).2 = ("", none) ∧
    (resourceCloudProjectDelete.terminate
        (sampleCollaborators "*" (.ok []) none (some ⟨"broken", some 500⟩))
        "aabbccddeeff40000000000000000000" freshState).2 =
      ("", some (Errorf ("calling Post /cloud/project/aabbccddeeff40000000000000000000/terminate"
        ++ ":\n\t " ++ strconvQuote (fun _ => true) "broken"))) ∧
    (resourceCloudProjectDelete.terminate
        (sampleCollaborators "*" (.ok []) none none)
        "aabbccddeeff40000000000000000000" freshState).2 =
      ("aabbccddeeff40000000000000000000", none) :=
  ⟨(C5_terminate_suppresses_404_and_460
      (sampleCollaborators "*" (.ok []) none (some ⟨"not found", some 404⟩))
      "aabbccddeeff40000000000000000000" freshState).2.1 _ rfl (Or.inl rfl),
    (C5_terminate_suppresses_404_and_460
      (sampleCollaborators "*" (.ok []) none (some ⟨"terminating", some 460⟩))
      "aabbccddeeff40000000000000000000" freshState).2.1 _ rfl (Or.inr rfl),
    by decide,
    (C5_terminate_suppresses_404_and_460
      (sampleCollaborators "*" (.ok []) none none)
      "aabbccddeeff40000000000000000000" freshState).2.2.2.1 rfl⟩

/-- C6, as stated, fails: the name `aabbccddeeff4000000000000000001` has 31
characters and does not match the format, so with the domain `"*"` no
operation of the scenario matches and the resolver returns `"*"`. -/
theorem C6_scenario_counterexample :
    publicCloudProjectNameFormatRegex.MatchString "aabbccddeeff4000000000000000001" = false ∧
    (resourceCloudProjectRead.serviceName
        (sampleCollaborators "*"
          (.ok [operationNamed "not-matching",
            operationNamed "aabbccddeeff4000000000000000001"]) none none)
        ⟨1⟩ ⟨2, "*"⟩ freshState).2 = .ok "*" ∧
    (resourceCloudProjectRead.serviceName
        (sampleCollaborators "*"
          (.ok [operationNamed "not-matching",
            operationNamed "aabbccddeeff4000000000000000001"]) none none)
        ⟨1⟩ ⟨2, "*"⟩ freshState).2 ≠ .ok "aabbccddeeff4000000000000000001" := by
  decide

/-- C6, amended. With the first detail domain `"*"`: when the lookup returns,
in order, operations named `not-matching` and
`aabbccddeeff4000000000000000001` (31 characters), each of the three
resolvers returns `"*"`; when the second operation carries the 32-character
name `aabbccddeeff40000000000000000001`, each returns that name. -/
theorem C6_scenario_amended (x : Collaborators) (order : MeOrder) (orderDetailId : Int)
    (s : State) :
    (x.orderDetailOperations s.calls order.OrderId orderDetailId =
        .ok [operationNamed "not-matching",
          operationNamed "aabbccddeeff4000000000000000001"] →
      (resourceCloudProjectUpdate.serviceName x order ⟨orderDetailId, "*"⟩ s).2 = .ok "*" ∧
      (resourceCloudProjectRead.serviceName x order ⟨orderDetailId, "*"⟩ s).2 = .ok "*" ∧
      (resourceCloudProjectDelete.serviceName x order ⟨orderDetailId, "*"⟩ s).2 = .ok "*") ∧
    (x.orderDetailOperations s.calls order.OrderId orderDetailId =
        .ok [operationNamed "not-matching",
          operationNamed "aabbccddeeff40000000000000000001"] →
      (resourceCloudProjectUpdate.serviceName x order ⟨orderDetailId, "*"⟩ s).2 =
        .ok "aabbccddeeff40000000000000000001" ∧
      (resourceCloudProjectRead.serviceName x order ⟨orderDetailId, "*"⟩ s).2 =
        .ok "aabbccddeeff40000000000000000001" ∧
      (resourceCloudProjectDelete.serviceName x order ⟨orderDetailId, "*"⟩ s).2 =
        .ok "aabbccddeeff40000000000000000001") := by
  have hstar : publicCloudProjectNameFormatRegex.MatchString "*" = false := by decide
  rw [update_serviceName_eq_read, delete_serviceName_eq_read]
  constructor
  · intro hops
    have h := read_serviceName_ok x order ⟨orderDetailId, "*"⟩ s _ hstar hops
    have hl : lastMatchingName "*" [operationNamed "not-matching",
        operationNamed "aabbccddeeff4000000000000000001"] = "*" := by decide
    rw [h, hl]
    exact ⟨rfl, rfl, rfl⟩
  · intro hops
    have h := read_serviceName_ok x order ⟨orderDetailId, "*"⟩ s _ hstar hops
    have hl : lastMatchingName "*" [operationNamed "not-matching",
        operationNamed "aabbccddeeff40000000000000000001"] =
        "aabbccddeeff40000000000000000001" := by decide
    rw [h, hl]
    exact ⟨rfl, rfl, rfl⟩

/-- C6 amended, run on the sample collaborators with the 32-character
name. -/
theorem C6_scenario_amended_witness :
    (resourceCloudProjectRead.serviceName
        (sampleCollaborators "*"
          (.ok [operationNamed "not-matching",
            operationNamed "aabbccddeeff40000000000000000001"]) none none)
        ⟨1⟩ ⟨2, "*"⟩ freshState).2 = .ok "aabbccddeeff40000000000000000001" :=
  ((C6_scenario_amended
      (sampleCollaborators "*"
        (.ok [operationNamed "not-matching",
          operationNamed "aabbccddeeff40000000000000000001"]) none none)
      ⟨1⟩ 2 freshState).2 rfl).2.1

/-- C7, as stated, fails: the domain `aabbccddeeff4000000000000000000` has 31
characters, it does not match the format, and the resolver does call
`orderDetailOperations` for it. -/
theorem C7_scenario_counterexample :
    "aabbccddeeff4000000000000000000".length = 31 ∧
    publicCloudProjectNameFormatRegex.MatchString "aabbccddeeff4000000000000000000" = false ∧
    (resourceCloudProjectRead.serviceName
        (sampleCollaborators "aabbccddeeff4000000000000000000" (.ok []) none none)
        ⟨1⟩ ⟨2, "aabbccddeeff4000000000000000000"⟩ freshState).1.calls =
      [.orderDetailOperations 1 2] := by
  decide

/-- C7, amended. The domain `aabbccddeeff4000000000000000000` is 31
hexadecimal characters with the digit `4` at position 13; it does not match
the format, so each resolver makes one `orderDetailOperations` call for it and
returns the last matching operation name, or the domain unchanged when no
operation matches. The 32-character domain
`aabbccddeeff40000000000000000000` matches the format and each resolver
returns it unchanged without any call. -/
theorem C7_scenario_amended (x : Collaborators) (order : MeOrder) (orderDetailId : Int)
    (s : State) :
    ("aabbccddeeff4000000000000000000".length = 31 ∧
      (∀ c ∈ "aabbccddeeff4000000000000000000".toList, isLowerHexDigit c) ∧
      "aabbccddeeff4000000000000000000".toList[12]? = some '4' ∧
      publicCloudProjectNameFormatRegex.MatchString "aabbccddeeff4000000000000000000" = false) ∧
    ((resourceCloudProjectRead.serviceName x order
          ⟨orderDetailId, "aabbccddeeff4000000000000000000"⟩ s).1.calls =
        s.calls ++ [.orderDetailOperations order.OrderId orderDetailId] ∧
      (resourceCloudProjectRead.serviceName x order
          ⟨orderDetailId, "aabbccddeeff4000000000000000000"⟩ s).2.toOption =
        match x.orderDetailOperations s.calls order.OrderId orderDetailId with
        | .error _ => none
        | .ok operations =>
          some (lastMatchingName "aabbccddeeff4000000000000000000" operations)) ∧
    (publicCloudProjectNameFormatRegex.MatchString "aabbccddeeff40000000000000000000" = true ∧
      resourceCloudProjectUpdate.serviceName x order
          ⟨orderDetailId, "aabbccddeeff40000000000000000000"⟩ s =
        (s, .ok "aabbccddeeff40000000000000000000") ∧
      resourceCloudProjectRead.serviceName x order
          ⟨orderDetailId, "aabbccddeeff40000000000000000000"⟩ s =
        (s, .ok "aabbccddeeff40000000000000000000") ∧
      resourceCloudProjectDelete.serviceName x order
          ⟨orderDetailId, "aabbccddeeff40000000000000000000"⟩ s =
        (s, .ok "aabbccddeeff40000000000000000000")) := by
  have h31 : publicCloudProjectNameFormatRegex.MatchString
      "aabbccddeeff4000000000000000000" = false := by decide
  have h32 : publicCloudProjectNameFormatRegex.MatchString
      "aabbccddeeff40000000000000000000" = true := by decide
  refine ⟨⟨by decide, by decide, by decide, h31⟩, ⟨?_, ?_⟩, h32, ?_⟩
  · rw [read_serviceName_calls x order ⟨orderDetailId, _⟩ s h31]
  · rw [read_serviceName_resolved]
    simp only [resolvedName, h31]
    rfl
  · rw [update_serviceName_eq_read, delete_serviceName_eq_read]
    exact ⟨read_serviceName_matching x order ⟨orderDetailId, _⟩ s h32,
      read_serviceName_matching x order ⟨orderDetailId, _⟩ s h32,
      read_serviceName_matching x order ⟨orderDetailId, _⟩ s h32⟩

/-- C8, as stated, fails in its last part: `orderRead` is handed the resource
data and may write to it (the schema of the resource carries the attributes of
`genericOrderSchema`, which nothing in `resource_cloud_project.go` sets). With
an `orderRead` that records the order, a domain `"*"` and a lookup that fails,
Read returns the error and makes no further call, but the attributes of the
resource are no longer those it was called with. -/
theorem C8_order_read_writes_counterexample :
    publicCloudProjectNameFormatRegex.MatchString "*" = false ∧
    resourceCloudProjectRead
        (orderWritingCollaborators "*" (.error ⟨"boom", none⟩)) freshState =
      (⟨⟨"1", [("order", "1")]⟩, [.orderRead "1", .orderDetailOperations 1 2]⟩,
        .returned (some (Errorf
          "Could not read cloudProject order details operations: \"boom\""))) ∧
    (resourceCloudProjectRead
        (orderWritingCollaborators "*" (.error ⟨"boom", none⟩)) freshState).1.d ≠
      freshState.d := by
  decide

/-- C8, amended. When the order was read, its first detail domain does not
match the format and `orderDetailOperations` returns an error, each of Update,
Read and Delete returns a non-nil error, makes no call after the failed lookup
(no PUT, GET or POST: the log ends with the lookup), and sets neither the id
nor an attribute itself: the resource data is the one `orderRead` handed back,
hence the one the operation was called with whenever `orderRead` left it
alone. When instead Update got as far as a successful PUT, it returns what
Read returns from the state after the PUT, so a lookup failing inside that
Read is the case of Read above. -/
theorem C8_lookup_failure_is_hard_failure (x : Collaborators) (s : State)
    (d1 : ResourceData) (order : MeOrder) (details0 : MeOrderDetail)
    (rest : List MeOrderDetail) (err : GoError)
    (hread : x.orderRead s.calls s.d = (d1, .ok (order, details0 :: rest)))
    (hdom : publicCloudProjectNameFormatRegex.MatchString details0.Domain = false)
    (hlook : x.orderDetailOperations (s.calls ++ [.orderRead s.d.Id]) order.OrderId
      details0.OrderDetailId = .error err) :
    resourceCloudProjectUpdate x s =
      (⟨d1, s.calls ++ [.orderRead s.d.Id,
          .orderDetailOperations order.OrderId details0.OrderDetailId]⟩,
        .returned (some (Errorf
          ("Could not read cloudProject order details operations: " ++
            x.Quote err.Error)))) ∧
    resourceCloudProjectRead x s =
      (⟨d1, s.calls ++ [.orderRead s.d.Id,
          .orderDetailOperations order.OrderId details0.OrderDetailId]⟩,
        .returned (some (Errorf
          ("Could not read cloudProject order details operations: " ++
            x.Quote err.Error)))) ∧
    resourceCloudProjectDelete x s =
      (⟨d1, s.calls ++ [.orderRead s.d.Id,
          .orderDetailOperations order.OrderId details0.OrderDetailId]⟩,
        .returned (some (Errorf
          ("Could not read cloudProject order details operations: " ++
            x.Quote err.Error)))) ∧
    (d1 = s.d →
      (resourceCloudProjectUpdate x s).1.d = s.d ∧
      (resourceCloudProjectRead x s).1.d = s.d ∧
      (resourceCloudProjectDelete x s).1.d = s.d) ∧
    (∀ (t t2 : State) (e1 : ResourceData) (order1 : MeOrder) (detail1 : MeOrderDetail)
        (rest1 : List MeOrderDetail) (serviceName : String),
      x.orderRead t.calls t.d = (e1, .ok (order1, detail1 :: rest1)) →
      resourceCloudProjectUpdate.serviceName x order1 detail1
        ⟨e1, t.calls ++ [.orderRead t.d.Id]⟩ = (t2, .ok serviceName) →
      x.Put t2.calls ("/cloud/project/" ++ x.PathEscape serviceName)
        (x.FromResource t2.d) = none →
      resourceCloudProjectUpdate x t =
        resourceCloudProjectRead x
          ⟨t2.d, t2.calls ++ [.Put ("/cloud/project/" ++ x.PathEscape serviceName)
            (x.FromResource t2.d)]⟩) := by
  have hu := update_of_lookup_error x s d1 order details0 rest err hread hdom hlook
  have hr := read_of_lookup_error x s d1 order details0 rest err hread hdom hlook
  have hd := delete_of_lookup_error x s d1 order details0 rest err hread hdom hlook
  refine ⟨hu, hr, hd, ?_, ?_⟩
  · intro h1
    rw [hu, hr, hd]
    exact ⟨h1, h1, h1⟩
  · intro t t2 e1 order1 detail1 rest1 serviceName h1 h2 h3
    exact update_of_put_ok x t t2 e1 order1 detail1 rest1 serviceName h1 h2 h3

/-- C8 amended, run on an order of domain `"*"` whose lookup fails, with an
`orderRead` that leaves the resource alone: Delete returns an error, its log
holds the order read and the lookup only, and the resource keeps its id and
attributes. -/
theorem C8_lookup_failure_is_hard_failure_witness :
    publicCloudProjectNameFormatRegex.MatchString "*" = false ∧
    resourceCloudProjectDelete
        (sampleCollaborators "*" (.error ⟨"boom", none⟩) none none) freshState =
      (⟨⟨"1", []⟩, [.orderRead "1", .orderDetailOperations 1 2]⟩,
        .returned (some (Errorf
          ("Could not read cloudProject order details operations: " ++
            strconvQuote (fun _ => true) "boom")))) ∧
    (resourceCloudProjectDelete
        (sampleCollaborators "*" (.error ⟨"boom", none⟩) none none) freshState).1.d =
      freshState.d :=
  ⟨by decide,
    (C8_lookup_failure_is_hard_failure
      (sampleCollaborators "*" (.error ⟨"boom", none⟩) none none) freshState
      ⟨"1", []⟩ ⟨1⟩ ⟨2, "*"⟩ [] ⟨"boom", none⟩ rfl (by decide) rfl).2.2.1,
    ((C8_lookup_failure_is_hard_failure
      (sampleCollaborators "*" (.error ⟨"boom", none⟩) none none) freshState
      ⟨"1", []⟩ ⟨1⟩ ⟨2, "*"⟩ [] ⟨"boom", none⟩ rfl (by decide) rfl).2.2.2.1 rfl).2.2⟩

/-- C9, as stated, fails: when the terminate POST of Delete fails with an
`ovh.APIError` of code 404, the closure `terminate` returns the empty string
and no error at all, so no error carrying the verb and the endpoint of the
failed call reaches the caller; with an `orderDelete` that hands on what
`terminate` returns, Delete itself returns `nil`. -/
theorem C9_suppressed_404_counterexample :
    (sampleCollaborators "aabbccddeeff40000000000000000000" (.ok []) none
        (some ⟨"not found", some 404⟩)).Post []
        "/cloud/project/aabbccddeeff40000000000000000000/terminate" none =
      some ⟨"not found", some 404⟩ ∧
    resourceCloudProjectDelete.terminate
        (sampleCollaborators "aabbccddeeff40000000000000000000" (.ok []) none
          (some ⟨"not found", some 404⟩))
        "aabbccddeeff40000000000000000000" freshState =
      (⟨⟨"1", []⟩,
          [.Post "/cloud/project/aabbccddeeff40000000000000000000/terminate" none]⟩,
        ("", none)) ∧
    resourceCloudProjectDelete
        (sampleCollaborators "aabbccddeeff40000000000000000000" (.ok []) none
          (some ⟨"not found", some 404⟩)) freshState =
      (⟨⟨"", []⟩, [.orderRead "1",
          .Post "/cloud/project/aabbccddeeff40000000000000000000/terminate" none]⟩,
        .returned none) := by
  decide

/-- C9, amended. Apart from an API error of code 404 or 460 on the terminate
POST, which is suppressed, an error of a call made during Update, Read or
Delete comes back with the verb and the endpoint of the failing call in its
text. For the calls these functions make on the client themselves they write
both into the text: the PUT of Update (`Put`), the terminate POST (`Post`) and
the confirmTermination POST (`Post`). An error of `orderRead` or of
`orderDetailOperations` is returned as a fixed text followed by the text of
that error quoted by `strconv.Quote`, which keeps every verb and endpoint
that the text names in printable characters other than the double quote and
the backslash. -/
theorem C9_errors_name_verb_and_endpoint (x : Collaborators) :
    (∀ (s s2 : State) (d1 : ResourceData) (order : MeOrder) (details0 : MeOrderDetail)
        (rest : List MeOrderDetail) (serviceName : String) (err : GoError),
      x.orderRead s.calls s.d = (d1, .ok (order, details0 :: rest)) →
      resourceCloudProjectUpdate.serviceName x order details0
        ⟨d1, s.calls ++ [.orderRead s.d.Id]⟩ = (s2, .ok serviceName) →
      x.Put s2.calls ("/cloud/project/" ++ x.PathEscape serviceName)
        (x.FromResource s2.d) = some err →
      ∃ e, (resourceCloudProjectUpdate x s).2 = .returned (some e) ∧
        occursIn "Put" e.Error ∧
        occursIn ("/cloud/project/" ++ x.PathEscape serviceName) e.Error) ∧
    (∀ (s : State) (serviceName : String) (err : GoError),
      x.Post s.calls ("/cloud/project/" ++ x.PathEscape serviceName ++ "/terminate") none =
        some err →
      ¬ (err.apiCode = some 404 ∨ err.apiCode = some 460) →
      ∃ e, (resourceCloudProjectDelete.terminate x serviceName s).2 = ("", some e) ∧
        occursIn "Post" e.Error ∧
        occursIn ("/cloud/project/" ++ x.PathEscape serviceName ++ "/terminate") e.Error) ∧
    (∀ (s : State) (serviceName token : String) (err : GoError),
      x.Post s.calls ("/cloud/project/" ++ x.PathEscape serviceName ++ "/confirmTermination")
        (some token) = some err →
      ∃ e, (resourceCloudProjectDelete.confirmTerminate x serviceName token s).2 = some e ∧
        occursIn "Post" e.Error ∧
        occursIn ("/cloud/project/" ++ x.PathEscape serviceName ++ "/confirmTermination")
          e.Error) ∧
    (∀ (s : State) (d1 : ResourceData) (err : GoError),
      x.orderRead s.calls s.d = (d1, .error err) →
      (resourceCloudProjectUpdate x s).2 = .returned (some (Errorf
        ("Could not read cloud project order: " ++ x.Quote err.Error))) ∧
      (resourceCloudProjectRead x s).2 = .returned (some (Errorf
        ("Could not read cloudProject order: " ++ x.Quote err.Error))) ∧
      (resourceCloudProjectDelete x s).2 = .returned (some (Errorf
        ("Could not read cloudProject order: " ++ x.Quote err.Error)))) ∧
    (∀ (s : State) (order : MeOrder) (details0 : MeOrderDetail) (err : GoError),
      publicCloudProjectNameFormatRegex.MatchString details0.Domain = false →
      x.orderDetailOperations s.calls order.OrderId details0.OrderDetailId = .error err →
      (resourceCloudProjectUpdate.serviceName x order details0 s).2 = .error (Errorf
        ("Could not read cloudProject order details operations: " ++ x.Quote err.Error)) ∧
      (resourceCloudProjectRead.serviceName x order details0 s).2 = .error (Errorf
        ("Could not read cloudProject order details operations: " ++ x.Quote err.Error)) ∧
      (resourceCloudProjectDelete.serviceName x order details0 s).2 = .error (Errorf
        ("Could not read cloudProject order details operations: " ++ x.Quote err.Error))) ∧
    (∀ (wide : Char → Bool), (∀ t, x.Quote t = strconvQuote wide t) →
      ∀ (s : State) (d1 : ResourceData) (err : GoError) (verb endpoint : String),
      x.orderRead s.calls s.d = (d1, .error err) →
      plainText verb = true → plainText endpoint = true →
      occursIn verb err.Error → occursIn endpoint err.Error →
      ∃ eu er ed,
        (resourceCloudProjectUpdate x s).2 = .returned (some eu) ∧
        (resourceCloudProjectRead x s).2 = .returned (some er) ∧
        (resourceCloudProjectDelete x s).2 = .returned (some ed) ∧
        occursIn verb eu.Error ∧ occursIn endpoint eu.Error ∧
        occursIn verb er.Error ∧ occursIn endpoint er.Error ∧
        occursIn verb ed.Error ∧ occursIn endpoint ed.Error) ∧
    (∀ (wide : Char → Bool), (∀ t, x.Quote t = strconvQuote wide t) →
      ∀ (s : State) (d1 : ResourceData) (order : MeOrder) (details0 : MeOrderDetail)
        (rest : List MeOrderDetail) (err : GoError) (verb endpoint : String),
      x.orderRead s.calls s.d = (d1, .ok (order, details0 :: rest)) →
      publicCloudProjectNameFormatRegex.MatchString details0.Domain = false →
      x.orderDetailOperations (s.calls ++ [.orderRead s.d.Id]) order.OrderId
        details0.OrderDetailId = .error err →
      plainText verb = true → plainText endpoint = true →
      occursIn verb err.Error → occursIn endpoint err.Error →
      ∃ eu er ed,
        (resourceCloudProjectUpdate x s).2 = .returned (some eu) ∧
        (resourceCloudProjectRead x s).2 = .returned (some er) ∧
        (resourceCloudProjectDelete x s).2 = .returned (some ed) ∧
        occursIn verb eu.Error ∧ occursIn endpoint eu.Error ∧
        occursIn verb er.Error ∧ occursIn endpoint er.Error ∧
        occursIn verb ed.Error ∧ occursIn endpoint ed.Error) := by
  refine ⟨?_, ?_, ?_, ?_, ?_, ?_, ?_⟩
  · intro s s2 d1 order details0 rest serviceName err hread hname hput
    rw [update_of_put_error x s s2 d1 order details0 rest serviceName err hread hname hput]
    refine ⟨_, rfl, ?_⟩
    show occursIn "Put" ("calling Put " ++ _ ++ ": " ++ _) ∧
      occursIn _ ("calling Put " ++ _ ++ ": " ++ _)
    rw [calling_put_text]
    exact calling_names_verb_and_endpoint "Put" _ ": " _
  · intro s serviceName err hp hc
    rw [terminate_of_post]
    simp only [hp, if_neg hc]
    refine ⟨_, rfl, ?_⟩
    show occursIn "Post" ("calling Post " ++ _ ++ ":\n\t " ++ _) ∧
      occursIn _ ("calling Post " ++ _ ++ ":\n\t " ++ _)
    rw [calling_post_text]
    exact calling_names_verb_and_endpoint "Post" _ ":\n\t " _
  · intro s serviceName token err hp
    rw [confirmTerminate_of_post]
    simp only [hp]
    refine ⟨_, rfl, ?_⟩
    show occursIn "Post" ("calling Post " ++ _ ++ ":\n\t " ++ _) ∧
      occursIn _ ("calling Post " ++ _ ++ ":\n\t " ++ _)
    rw [calling_post_text]
    exact calling_names_verb_and_endpoint "Post" _ ":\n\t " _
  · intro s d1 err hread
    simp [resourceCloudProjectUpdate, resourceCloudProjectRead, resourceCloudProjectDelete,
      callOrderRead, hread]
  · intro s order details0 err hdom hlook
    rw [update_serviceName_eq_read, delete_serviceName_eq_read,
      read_serviceName_error x order details0 s err hdom hlook]
    exact ⟨rfl, rfl, rfl⟩
  · intro wide hq s d1 err verb endpoint hread hv he hov hoe
    have hu : (resourceCloudProjectUpdate x s).2 = .returned (some (Errorf
        ("Could not read cloud project order: " ++ x.Quote err.Error))) := by
      simp [resourceCloudProjectUpdate, callOrderRead, hread]
    have hr : (resourceCloudProjectRead x s).2 = .returned (some (Errorf
        ("Could not read cloudProject order: " ++ x.Quote err.Error))) := by
      simp [resourceCloudProjectRead, callOrderRead, hread]
    have hd : (resourceCloudProjectDelete x s).2 = .returned (some (Errorf
        ("Could not read cloudProject order: " ++ x.Quote err.Error))) := by
      simp [resourceCloudProjectDelete, callOrderRead, hread]
    exact ⟨_, _, _, hu, hr, hd,
      occursIn_quoted_text x wide verb _ _ hq hv hov,
      occursIn_quoted_text x wide endpoint _ _ hq he hoe,
      occursIn_quoted_text x wide verb _ _ hq hv hov,
      occursIn_quoted_text x wide endpoint _ _ hq he hoe,
      occursIn_quoted_text x wide verb _ _ hq hv hov,
      occursIn_quoted_text x wide endpoint _ _ hq he hoe⟩
  · intro wide hq s d1 order details0 rest err verb endpoint hread hdom hlook hv he hov hoe
    have hu := update_of_lookup_error x s d1 order details0 rest err hread hdom hlook
    have hr := read_of_lookup_error x s d1 order details0 rest err hread hdom hlook
    have hd := delete_of_lookup_error x s d1 order details0 rest err hread hdom hlook
    exact ⟨_, _, _, congrArg Prod.snd hu, congrArg Prod.snd hr, congrArg Prod.snd hd,
      occursIn_quoted_text x wide verb _ _ hq hv hov,
      occursIn_quoted_text x wide endpoint _ _ hq he hoe,
      occursIn_quoted_text x wide verb _ _ hq hv hov,
      occursIn_quoted_text x wide endpoint _ _ hq he hoe,
      occursIn_quoted_text x wide verb _ _ hq hv hov,
      occursIn_quoted_text x wide endpoint _ _ hq he hoe⟩

/-- C9 amended, run twice on an order of domain `"*"`: with no matching
operation and a PUT that fails, the text of the error holds `Put` and the
endpoint `/cloud/project/%2A`; with a lookup whose error names the verb `get`
and its endpoint, the text of the error Read returns holds both. -/
theorem C9_errors_name_verb_and_endpoint_witness :
    (resourceCloudProjectUpdate
        (sampleCollaborators "*" (.ok []) (some ⟨"boom", some 500⟩) none) freshState).2 =
      .returned (some (Errorf "calling Put /cloud/project/%2A: \"boom\"")) ∧
    (∃ e, (resourceCloudProjectUpdate
        (sampleCollaborators "*" (.ok []) (some ⟨"boom", some 500⟩) none) freshState).2 =
        .returned (some e) ∧
      occursIn "Put" e.Error ∧
      occursIn ("/cloud/project/" ++ urlPathEscape "*") e.Error) ∧
    ∃ eu er ed,
      (resourceCloudProjectUpdate
        (sampleCollaborators "*"
          (.error ⟨"calling get /me/order/1/details/2/operations: boom", none⟩) none none)
        freshState).2 = .returned (some eu) ∧
      (resourceCloudProjectRead
        (sampleCollaborators "*"
          (.error ⟨"calling get /me/order/1/details/2/operations: boom", none⟩) none none)
        freshState).2 = .returned (some er) ∧
      (resourceCloudProjectDelete
        (sampleCollaborators "*"
          (.error ⟨"calling get /me/order/1/details/2/operations: boom", none⟩) none none)
        freshState).2 = .returned (some ed) ∧
      occursIn "get" eu.Error ∧ occursIn "/me/order/1/details/2/operations" eu.Error ∧
      occursIn "get" er.Error ∧ occursIn "/me/order/1/details/2/operations" er.Error ∧
      occursIn "get" ed.Error ∧ occursIn "/me/order/1/details/2/operations" ed.Error :=
  ⟨by decide,
    (C9_errors_name_verb_and_endpoint
      (sampleCollaborators "*" (.ok []) (some ⟨"boom", some 500⟩) none)).1
      freshState ⟨⟨"1", []⟩, [.orderRead "1", .orderDetailOperations 1 2]⟩ ⟨"1", []⟩ ⟨1⟩
      ⟨2, "*"⟩ [] "*" ⟨"boom", some 500⟩ rfl (by decide) rfl,
    (C9_errors_name_verb_and_endpoint
      (sampleCollaborators "*"
        (.error ⟨"calling get /me/order/1/details/2/operations: boom", none⟩) none none)).2.2.2.2.2.2
      (fun _ => true) (fun _ => rfl) freshState ⟨"1", []⟩ ⟨1⟩ ⟨2, "*"⟩ []
      ⟨"calling get /me/order/1/details/2/operations: boom", none⟩
      "get" "/me/order/1/details/2/operations" rfl (by decide) rfl (by decide) (by decide)
      (by decide) (by decide)⟩

/-- C10, as stated, fails in its last part: with three matching operations
named A, B, A in that order, the resolved name is the first matching name
although the matching operations do not all carry the same name. -/
theorem C10_same_name_counterexample :
    (resourceCloudProjectRead.serviceName
        (sampleCollaborators "*"
          (.ok [operationNamed "aabbccddeeff40000000000000000000",
            operationNamed "aabbccddeeff40000000000000000001",
            operationNamed "aabbccddeeff40000000000000000000"]) none none)
        ⟨1⟩ ⟨2, "*"⟩ freshState).2 =
      .ok (firstMatchingName "*" [operationNamed "aabbccddeeff40000000000000000000",
          operationNamed "aabbccddeeff40000000000000000001",
          operationNamed "aabbccddeeff40000000000000000000"]) ∧
    ¬ (∀ a ∈ [operationNamed "aabbccddeeff40000000000000000000",
          operationNamed "aabbccddeeff40000000000000000001",
          operationNamed "aabbccddeeff40000000000000000000"],
        ∀ b ∈ [operationNamed "aabbccddeeff40000000000000000000",
          operationNamed "aabbccddeeff40000000000000000001",
          operationNamed "aabbccddeeff40000000000000000000"],
        publicCloudProjectNameFormatRegex.MatchString a.Resource.Name = true →
        publicCloudProjectNameFormatRegex.MatchString b.Resource.Name = true →
        a.Resource.Name = b.Resource.Name) := by
  decide

/-- C10, amended. When the first detail domain does not match the format and
the lookup returns a list with at least one operation of matching name, the
scan has no early exit: the list splits at its last matching operation (no
operation after it matches) and each of the three resolvers returns the name of
that operation. That name is the first matching name whenever all matching
operations carry the same name. -/
theorem C10_scan_keeps_last_matching (x : Collaborators) (order : MeOrder)
    (details0 : MeOrderDetail) (s : State) (operations : List MeOrderDetailOperation)
    (h : publicCloudProjectNameFormatRegex.MatchString details0.Domain = false)
    (hops : x.orderDetailOperations s.calls order.OrderId details0.OrderDetailId =
      .ok operations)
    (hex : ∃ o ∈ operations,
      publicCloudProjectNameFormatRegex.MatchString o.Resource.Name = true) :
    ∃ before o after, operations = before ++ o :: after ∧
      publicCloudProjectNameFormatRegex.MatchString o.Resource.Name = true ∧
      (∀ q ∈ after, publicCloudProjectNameFormatRegex.MatchString q.Resource.Name = false) ∧
      (resourceCloudProjectUpdate.serviceName x order details0 s).2 = .ok o.Resource.Name ∧
      (resourceCloudProjectRead.serviceName x order details0 s).2 = .ok o.Resource.Name ∧
      (resourceCloudProjectDelete.serviceName x order details0 s).2 = .ok o.Resource.Name ∧
      ((∀ a ∈ operations, ∀ b ∈ operations,
          publicCloudProjectNameFormatRegex.MatchString a.Resource.Name = true →
          publicCloudProjectNameFormatRegex.MatchString b.Resource.Name = true →
          a.Resource.Name = b.Resource.Name) →
        o.Resource.Name = firstMatchingName details0.Domain operations) := by
  obtain ⟨before, o, after, hsplit, ho, hafter⟩ := exists_last_matching operations hex
  have hmem : o ∈ operations := by rw [hsplit]; simp
  have hlast : lastMatchingName details0.Domain operations = o.Resource.Name := by
    rw [hsplit]
    exact lastMatchingName_split details0.Domain before after o ho hafter
  refine ⟨before, o, after, hsplit, ho, hafter, ?_, ?_, ?_, ?_⟩
  · rw [update_serviceName_eq_read, read_serviceName_ok x order details0 s operations h hops,
      hlast]
  · rw [read_serviceName_ok x order details0 s operations h hops, hlast]
  · rw [delete_serviceName_eq_read, read_serviceName_ok x order details0 s operations h hops,
      hlast]
  · intro hsame
    exact (firstMatchingName_of_same details0.Domain operations o.Resource.Name hex
      (fun a ha hma => hsame a ha o hmem hma ho)).symm

/-- C10 amended, run on the domain `"*"` with a matching operation, a
non-matching one and another matching one: the name of the third operation is
returned. -/
theorem C10_scan_keeps_last_matching_witness :
    (resourceCloudProjectRead.serviceName
        (sampleCollaborators "*"
          (.ok [operationNamed "aabbccddeeff40000000000000000000",
            operationNamed "not-matching",
            operationNamed "aabbccddeeff40000000000000000001"]) none none)
        ⟨1⟩ ⟨2, "*"⟩ freshState).2 = .ok "aabbccddeeff40000000000000000001" ∧
    ∃ before o after,
      [operationNamed "aabbccddeeff40000000000000000000", operationNamed "not-matching",
        operationNamed "aabbccddeeff40000000000000000001"] = before ++ o :: after ∧
      publicCloudProjectNameFormatRegex.MatchString o.Resource.Name = true ∧
      (∀ q ∈ after, publicCloudProjectNameFormatRegex.MatchString q.Resource.Name = false) ∧
      (resourceCloudProjectUpdate.serviceName
        (sampleCollaborators "*"
          (.ok [operationNamed "aabbccddeeff40000000000000000000",
            operationNamed "not-matching",
            operationNamed "aabbccddeeff40000000000000000001"]) none none)
        ⟨1⟩ ⟨2, "*"⟩ freshState).2 = .ok o.Resource.Name ∧
      (resourceCloudProjectRead.serviceName
        (sampleCollaborators "*"
          (.ok [operationNamed "aabbccddeeff40000000000000000000",
            operationNamed "not-matching",
            operationNamed "aabbccddeeff40000000000000000001"]) none none)
        ⟨1⟩ ⟨2, "*"⟩ freshState).2 = .ok o.Resource.Name ∧
      (resourceCloudProjectDelete.serviceName
        (sampleCollaborators "*"
          (.ok [operationNamed "aabbccddeeff40000000000000000000",
            operationNamed "not-matching",
            operationNamed "aabbccddeeff40000000000000000001"]) none none)
        ⟨1⟩ ⟨2, "*"⟩ freshState).2 = .ok o.Resource.Name ∧
      ((∀ a ∈ [operationNamed "aabbccddeeff40000000000000000000",
            operationNamed "not-matching",
            operationNamed "aabbccddeeff40000000000000000001"],
          ∀ b ∈ [operationNamed "aabbccddeeff40000000000000000000",
            operationNamed "not-matching",
            operationNamed "aabbccddeeff40000000000000000001"],
          publicCloudProjectNameFormatRegex.MatchString a.Resource.Name = true →
          publicCloudProjectNameFormatRegex.MatchString b.Resource.Name = true →
          a.Resource.Name = b.Resource.Name) →
        o.Resource.Name = firstMatchingName "*"
          [operationNamed "aabbccddeeff40000000000000000000", operationNamed "not-matching",
            operationNamed "aabbccddeeff40000000000000000001"]) :=
  ⟨by decide,
    C10_scan_keeps_last_matching
      (sampleCollaborators "*"
        (.ok [operationNamed "aabbccddeeff40000000000000000000", operationNamed "not-matching",
          operationNamed "aabbccddeeff40000000000000000001"]) none none)
      ⟨1⟩ ⟨2, "*"⟩ freshState _ (by decide) rfl
      ⟨operationNamed "aabbccddeeff40000000000000000000", by simp, by decide⟩⟩

end Ovh
